import Mathlib

/-!
Verification of the Website-Tech-Stack-Detector scanner (`src/main.js`).

The development shallow-embeds the signature corpus, the evidence scanner
(`analyzeStaticResponse`), the WAF scorer (`detectWAF`), the verdict
synthesizer (`buildVerdict`), the Tier-1/Tier-2 orchestrator, and the
dedup helpers.  JavaScript regular expressions are embedded via a small
regex AST (`RE`) and a fuel-bounded backtracking matcher; the `i` flag is
modelled by lower-casing both the subject string and the pattern's
literals.  JavaScript strings are Lean `String`s, header maps and the
`techMatches` object are association lists preserving insertion order
(JS object key order), and `set-cookie` values are lists of strings.
-/

set_option maxRecDepth 1000000
set_option maxHeartbeats 4000000

namespace TechStack

/-! ## Regex AST and matcher

`RE` mirrors the constructs used by the regexes in `main.js`:
literal characters, `.` (any char except newline), character classes
(optionally negated, given as closed ranges), concatenation, alternation,
Kleene star and the word-boundary assertion `\b`.  `+`, `?` and `{n}` are
derived forms. -/

inductive RE where
  | eps : RE
  | anychar : RE
  | ch : Char → RE
  | cls : Bool → List (Char × Char) → RE
  | seq : RE → RE → RE
  | alt : RE → RE → RE
  | star : RE → RE
  | wb : RE
deriving Repr

/-- ASCII lower-casing of one character (JS `toLowerCase` restricted to
ASCII, which covers every string the corpus compares). -/
def lcChar (c : Char) : Char :=
  if 'A' ≤ c ∧ c ≤ 'Z' then Char.ofNat (c.toNat + 32) else c

/-- ASCII lower-casing of a string (model of JS `String.prototype.toLowerCase`).
Defined over `String.data` so that it evaluates inside the kernel. -/
def lcString (s : String) : String := ⟨s.data.map lcChar⟩

/-- JS `\w` (word character): `[A-Za-z0-9_]`. -/
def isWordChar (c : Char) : Bool :=
  (('a' ≤ c && c ≤ 'z') || ('A' ≤ c && c ≤ 'Z') || ('0' ≤ c && c ≤ '9') || c = '_')

/-- Does `c` fall in one of the closed ranges? -/
def inRanges (rs : List (Char × Char)) (c : Char) : Bool :=
  rs.any (fun r => r.1 ≤ c && c ≤ r.2)

/-- `\b` holds between `prev` and the head of `s` (or at either end). -/
def atWordBoundary (prev : Option Char) (s : List Char) : Bool :=
  let l := match prev with | none => false | some c => isWordChar c
  let r := match s with | [] => false | c :: _ => isWordChar c
  l != r

/-- Fuel-bounded backtracking matcher in continuation-passing style.
`prev` is the character just before the current position (for `\b`).
Alternatives are tried left-first and `star` greedily (body first),
matching the JS backtracking order; the continuation returns the first
accepted remainder, so a failing continuation forces backtracking.
Star iterations that consume nothing are cut off, which does not change
matchability. -/
def reFind : Nat → RE → Option Char → List Char →
    (Option Char → List Char → Option (List Char)) → Option (List Char)
  | 0, _, _, _, _ => none
  | fuel + 1, r, prev, s, k =>
    match r with
    | .eps => k prev s
    | .anychar =>
      match s with
      | [] => none
      | c :: rest => if c = '\n' then none else k (some c) rest
    | .ch a =>
      match s with
      | [] => none
      | c :: rest => if c = a then k (some c) rest else none
    | .cls neg rs =>
      match s with
      | [] => none
      | c :: rest => if (inRanges rs c) != neg then k (some c) rest else none
    | .seq r1 r2 =>
      reFind fuel r1 prev s (fun p' s' => reFind fuel r2 p' s' k)
    | .alt r1 r2 =>
      (reFind fuel r1 prev s k).orElse (fun _ => reFind fuel r2 prev s k)
    | .star r1 =>
      (reFind fuel r1 prev s (fun p' s' =>
        if s'.length < s.length then reFind fuel (.star r1) p' s' k else none)).orElse
        (fun _ => k prev s)
    | .wb => if atWordBoundary prev s then k prev s else none

/-- Structural size of a regex, used to choose the matcher fuel. -/
def reSize : RE → Nat
  | .eps => 1
  | .anychar => 1
  | .ch _ => 1
  | .cls _ _ => 1
  | .seq a b => reSize a + reSize b + 1
  | .alt a b => reSize a + reSize b + 1
  | .star a => reSize a + 1
  | .wb => 1

/-- Fuel that bounds the backtracking depth of one anchored attempt. -/
def reFuel (r : RE) (s : List Char) : Nat :=
  (reSize r + 2) * (s.length + 2)

/-- Unanchored search: try an anchored match at every start position,
left to right (the JS `RegExp.prototype.test` semantics). -/
def searchAux : Nat → RE → Option Char → List Char → Bool
  | 0, _, _, _ => false
  | fuel + 1, r, prev, s =>
    (reFind (reFuel r s) r prev s (fun _ s' => some s')).isSome ||
      match s with
      | [] => false
      | c :: rest => searchAux fuel r (some c) rest

/-- A JS regex literal: the `i` flag plus the pattern body.  Patterns
with the flag are written with lower-cased literals and tested against
the lower-cased subject. -/
structure JsRegex where
  ci : Bool
  re : RE
deriving Repr

/-- `pattern.test(s)`. -/
def JsRegex.test (p : JsRegex) (s : String) : Bool :=
  let s := if p.ci then lcString s else s
  let cs := s.data
  searchAux (cs.length + 1) p.re none cs

/-! ### Regex combinators used to transcribe the literals -/

/-- Concatenation of a list of regexes. -/
def rseq : List RE → RE
  | [] => .eps
  | [r] => r
  | r :: rs => .seq r (rseq rs)

/-- Alternation of a list of regexes (`a|b|c`), left-nested as in JS. -/
def ralts : List RE → RE
  | [] => .eps
  | [r] => r
  | r :: rs => .alt r (ralts rs)

/-- A literal string. -/
def rchs (s : String) : RE := rseq (s.data.map RE.ch)

/-- Alternation of literal strings. -/
def rlits (ss : List String) : RE := ralts (ss.map rchs)

/-- A positive character class of single characters. -/
def rcset (cs : List Char) : RE := .cls false (cs.map fun c => (c, c))

/-- `r+`. -/
def rplus (r : RE) : RE := .seq r (.star r)

/-- `r?`. -/
def ropt (r : RE) : RE := .alt r .eps

/-- `r{n}`. -/
def rrep (r : RE) : Nat → RE
  | 0 => .eps
  | n + 1 => .seq r (rrep r n)

/-- `\d`. -/
def rdigit : RE := .cls false [('0', '9')]

/-- `[@\-.]`, the separator class used by many script/link patterns. -/
def rsep : RE := rcset ['@', '-', '.']

/-- `["']`. -/
def rquote : RE := rcset ['"', '\'']

/-- `[^"']`. -/
def rnonquote : RE := .cls true [('"', '"'), ('\'', '\'')]

/-- `.+`. -/
def ranyplus : RE := rplus .anychar

/-- `.*`. -/
def ranystar : RE := .star .anychar

/-! ## String helpers (kernel-reducible replacements for JS string ops) -/

/-- Does `pre` occur at the head of `l`? -/
def listStarts : List Char → List Char → Bool
  | [], _ => true
  | _ :: _, [] => false
  | p :: ps, c :: cs => p = c && listStarts ps cs

/-- Does `needle` occur anywhere inside `hay`?  (JS `String.prototype.includes`.) -/
def listContainsSub (hay needle : List Char) : Bool :=
  listStarts needle hay ||
    match hay with
    | [] => false
    | _ :: rest => listContainsSub rest needle

/-- JS `hay.includes(needle)`. -/
def strIncludes (hay needle : String) : Bool := listContainsSub hay.data needle.data

/-- JS `s.startsWith(p)`. -/
def strStarts (s p : String) : Bool := listStarts p.data s.data

/-- ASCII upper-casing of one character (JS `toUpperCase` on ASCII). -/
def ucChar (c : Char) : Char :=
  if 'a' ≤ c ∧ c ≤ 'z' then Char.ofNat (c.toNat - 32) else c

/-- JS `str.charAt(0).toUpperCase() + str.slice(1)`. -/
def capitalizeStr (s : String) : String :=
  match s.data with
  | [] => ""
  | c :: cs => ⟨ucChar c :: cs⟩

/-- JS `arr.join(sep)`. -/
def joinWith (sep : String) : List String → String
  | [] => ""
  | [s] => s
  | s :: rest => s ++ sep ++ joinWith sep rest

/-- JS `s.split(/[_-]/)`: split on underscore or hyphen. -/
def splitDashUnderscore (s : String) : List String :=
  let step := fun (acc : List String × List Char) (c : Char) =>
    if c = '_' ∨ c = '-' then (acc.1 ++ [⟨acc.2.reverse⟩], [])
    else (acc.1, c :: acc.2)
  let fin := s.data.foldl step ([], [])
  fin.1 ++ [⟨fin.2.reverse⟩]

/-! ## Version extraction (`extractVersion`, main.js lines 476-498)

Each of the four context patterns has the shape `pre (group) post` with a
single capture group.  `findGroup` returns the text captured by the group
at the first (leftmost, JS-backtracking-order) match, mirroring
`String.prototype.match` followed by `match[1]`. -/

/-- Search for `pre (g) post` at successive start positions and return the
first capture. -/
def findGroupAux : Nat → RE → RE → RE → Option Char → List Char → Option String
  | 0, _, _, _, _, _ => none
  | fuel + 1, pre, g, post, prev, s =>
    let attempt :=
      reFind (reFuel pre s) pre prev s (fun p1 s1 =>
        reFind (reFuel g s) g p1 s1 (fun p2 s2 =>
          (reFind (reFuel post s) post p2 s2 (fun _ s3 => some s3)).map (fun _ =>
            s1.take (s1.length - s2.length))))
    match attempt with
    | some cap => some ⟨cap⟩
    | none =>
      match s with
      | [] => none
      | c :: rest => findGroupAux fuel pre g post (some c) rest

/-- The capture of the first match of `pre (g) post` in `s`;
`ci` models the regex `i` flag. -/
def findGroup (ci : Bool) (pre g post : RE) (s : String) : Option String :=
  let s := if ci then lcString s else s
  let cs := s.data
  findGroupAux (cs.length + 1) pre g post none cs

/-- Validation `/^\d+\.\d+/.test(version)`: one or more digits, a literal
dot, then another digit, at the start of the string. -/
def versionValid (v : String) : Bool :=
  let cs := v.data
  let ds := cs.takeWhile Char.isDigit
  let rest := cs.drop ds.length
  decide (ds ≠ []) &&
    match rest with
    | '.' :: d :: _ => d.isDigit
    | _ => false

/-- The group `(\d+.\d+.\d+)` — in the JS source the dots inside the
template literal are *unescaped*, so they are the `.` wildcard. -/
def versionGroup3 : RE :=
  rseq [rplus rdigit, .anychar, rplus rdigit, .anychar, rplus rdigit]

/-- The group `(\d+.\d+)` (dot again a wildcard, see `versionGroup3`). -/
def versionGroup2 : RE := rseq [rplus rdigit, .anychar, rplus rdigit]

/-- The group `([\d.]+)`. -/
def versionGroupPath : RE := rplus (.cls false [('0', '9'), ('.', '.')])

/-- `extractVersion(text, techName)` (main.js lines 476-498).  Tries, in
order: `techName` then one of at-sign, slash, hyphen, then `v?(\d+.\d+.\d+)`
(flag i); the same with group `(\d+.\d+)` (flag i); a slash, group
`([\d.]+)`, slash; an at-sign, group `([\d.]+)`, slash.  A capture is
returned only if it passes `versionValid`, otherwise the next pattern is
tried. -/
def extractVersion (text : String) (techName : String) : Option String :=
  if text = "" then none
  else
    let step := fun (cap : Option String) (next : Unit → Option String) =>
      match cap with
      | some v => if versionValid v then some v else next ()
      | none => next ()
    let vsep := rcset ['@', '/', '-']
    let p1 := findGroup true (rseq [rchs techName, vsep, ropt (.ch 'v')]) versionGroup3 .eps text
    let p2 := fun (_ : Unit) =>
      findGroup true (rseq [rchs techName, vsep]) versionGroup2 .eps text
    let p3 := fun (_ : Unit) =>
      findGroup false (.ch '/') versionGroupPath (.ch '/') text
    let p4 := fun (_ : Unit) =>
      findGroup false (.ch '@') versionGroupPath (.ch '/') text
    step p1 (fun _ => step (p2 ()) (fun _ => step (p3 ()) (fun _ => step (p4 ()) (fun _ => none))))

/-! ## Categories, thresholds, display names (main.js lines 281-399) -/

/-- The keys of the `technologies` map built by `analyzeStaticResponse`
(main.js lines 554-562).  `backend` exists in the map but no corpus rule
is ever routed to it. -/
inductive Category where
  | frontend | backend | cms | analytics | hosting | cdn | libraries
deriving DecidableEq, Repr

/-- `TECH_CATEGORIES` (main.js lines 281-287). -/
def TECH_CATEGORIES : List (Category × List String) :=
  [(.frontend, ["react", "vue", "angular", "svelte", "nextjs", "nuxtjs", "gatsby", "remix", "astro"]),
   (.cms, ["wordpress", "drupal", "joomla", "shopify", "magento", "wix", "squarespace", "weebly", "typo3"]),
   (.analytics, ["googleanalytics", "gtm", "hotjar", "mixpanel", "segment", "amplitude", "intercom", "sentry"]),
   (.hosting, ["vercel", "netlify", "heroku", "digitalocean", "aws"]),
   (.cdn, ["cloudflare", "cloudfront", "fastly", "akamai_cdn"])]

/-- Scan the category table for the first entry containing `lower`. -/
def categoryLookup (lower : String) : List (Category × List String) → Category
  | [] => .libraries
  | (cat, names) :: rest => if names.contains lower then cat else categoryLookup lower rest

/-- `getCategoryForTech` (main.js lines 363-369): first category whose
list contains the lower-cased name, else `libraries`. -/
def getCategoryForTech (techName : String) : Category :=
  categoryLookup (lcString techName) TECH_CATEGORIES

/-- `MIN_CONFIDENCE_BY_CATEGORY[category] || 2` (main.js lines 289-296
and 654): cms 3, every other category 2 (backend falls back to the
default 2 because it has no entry). -/
def minConfidence : Category → Nat
  | .cms => 3
  | _ => 2

/-- `DISPLAY_NAMES` (main.js lines 319-333). -/
def DISPLAY_NAMES : List (String × String) :=
  [("nextjs", "Next.js"), ("nuxtjs", "Nuxt.js"), ("gatsby", "Gatsby"),
   ("remix", "Remix"), ("astro", "Astro"), ("jquery", "jQuery"),
   ("lodash", "Lodash"), ("momentjs", "Moment.js"),
   ("googleanalytics", "Google Analytics"), ("gtm", "Google Tag Manager"),
   ("materialui", "Material UI"), ("aws", "AWS"), ("akamai_cdn", "Akamai CDN")]

/-- `humanizeTechName` (main.js lines 349-357): display-name table hit,
else split on underscore or hyphen, capitalize each part, join with a
space. -/
def humanizeTechName (name : String) : String :=
  if name = "" then ""
  else
    let lower := lcString name
    match DISPLAY_NAMES.lookup lower with
    | some d => d
    | none => joinWith " " ((splitDashUnderscore lower).map capitalizeStr)

/-- `formatTechName` (main.js lines 359-361). -/
def formatTechName (name : String) (version : Option String) : String :=
  match version with
  | some v => name ++ " " ++ v
  | none => name

/-- `confidenceFromScore` (main.js lines 371-375): the verdict tiering.
Note the `high` cut is 6, not the WAF scorer's 5. -/
def confidenceFromScore (score : Nat) : String :=
  if score ≥ 6 then "high" else if score ≥ 3 then "medium" else "low"

/-- `deduplicateArray` (main.js lines 338-347): keep the first occurrence
of each case-insensitive key, preserving its original casing.  `seen` is
the set of lower-cased keys already kept. -/
def dedupAux (seen : List String) : List String → List String
  | [] => []
  | x :: xs =>
    let lower := lcString x
    if seen.contains lower then dedupAux seen xs
    else x :: dedupAux (lower :: seen) xs

/-- `deduplicateArray(arr)` on a list of strings. -/
def deduplicateArray (arr : List String) : List String := dedupAux [] arr

/-- `mapBrowserTechToKey` (main.js lines 377-399): lower-case, strip
non-alphanumerics, then look up the fixed mapping. -/
def mapBrowserTechToKey (displayName : String) : Option String :=
  let normalized : String := ⟨(lcString displayName).data.filter (fun c => c.isAlphanum)⟩
  let mapping : List (String × String) :=
    [("nextjs", "nextjs"), ("nuxtjs", "nuxtjs"), ("react", "react"),
     ("vue", "vue"), ("angular", "angular"), ("svelte", "svelte"),
     ("astro", "astro"), ("jquery", "jquery"), ("lodash", "lodash"),
     ("momentjs", "momentjs"), ("d3", "d3"), ("threejs", "threejs"),
     ("mixpanel", "mixpanel"), ("sentry", "sentry"), ("intercom", "intercom"),
     ("hotjar", "hotjar"), ("amplitude", "amplitude")]
  mapping.lookup normalized

/-- `STACK_INFERENCES` (main.js lines 299-316): tech key to (languages,
databases). -/
def STACK_INFERENCES : List (String × (List String × List String)) :=
  [("wordpress", (["PHP"], ["MySQL/MariaDB"])),
   ("drupal", (["PHP"], ["MySQL/MariaDB", "PostgreSQL"])),
   ("joomla", (["PHP"], ["MySQL/MariaDB"])),
   ("magento", (["PHP"], ["MySQL/MariaDB"])),
   ("shopify", (["Ruby on Rails"], ["Shopify managed store"])),
   ("wix", (["Wix platform"], ["Wix Data"])),
   ("squarespace", (["Squarespace platform"], ["Squarespace Data"])),
   ("weebly", (["Weebly platform"], ["Weebly Data"])),
   ("typo3", (["PHP"], ["MySQL/MariaDB"])),
   ("nextjs", (["Node.js"], [])),
   ("nuxtjs", (["Node.js"], [])),
   ("react", (["JavaScript/TypeScript"], [])),
   ("vue", (["JavaScript/TypeScript"], [])),
   ("angular", (["JavaScript/TypeScript"], [])),
   ("svelte", (["JavaScript/TypeScript"], [])),
   ("astro", (["JavaScript/TypeScript"], []))]

/-! ## Signature corpus (`TECH_PATTERNS`, main.js lines 54-278)

Only the channels read by `analyzeStaticResponse` are carried: `script`,
`link`, `meta`, `html`, `headers`, `cdn`.  The `window` lists are used
solely by the browser probe (its fixed `checks` table) and the
`endpoints` entries are dead data, so neither is part of the rule type.
Regexes with the `i` flag are written with lower-cased literals. -/

/-- One meta matcher: tag name plus optional content pattern.  An entry
without a `content` pattern never scores (`meta.content && ...`). -/
structure MetaRule where
  name : String
  content : Option JsRegex

/-- One corpus rule. -/
structure TechRule where
  key : String
  script : List JsRegex := []
  link : List JsRegex := []
  meta : List MetaRule := []
  html : List JsRegex := []
  headers : List (String × JsRegex) := []
  cdn : List String := []

/-- `[^>]+`. -/
def rnogt : RE := rplus (.cls true [('>', '>')])

/-- `.+` with no flag, the header-presence pattern. -/
def rxAny : JsRegex := ⟨false, ranyplus⟩

/-- The corpus, in declaration order (JS object insertion order). -/
def TECH_PATTERNS : List TechRule :=
  [{ key := "react",
     script := [⟨true, ralts [rseq [rchs "react", rsep, ranystar, rchs ".js"],
                              rchs "react.production", rchs "react.development"]⟩],
     meta := [⟨"generator", some ⟨true, rchs "react"⟩⟩],
     html := [⟨true, rseq [rchs "<div", rnogt, rchs "id=", rquote, rchs "root", rquote]⟩,
              ⟨true, rlits ["reactdom.render", "reactdom.createroot"]⟩],
     cdn := ["unpkg.com/react", "cdnjs.com/ajax/libs/react"] },
   { key := "vue",
     script := [⟨true, ralts [rseq [rchs "vue", rsep, ranystar, rchs ".js"],
                              rchs "vue.global", rchs "vue.esm"]⟩],
     html := [⟨false, rseq [rchs "data-v-", rrep (.cls false [('a', 'f'), ('0', '9')]) 8]⟩,
              ⟨true, rlits ["v-if", "v-for", "v-bind", "v-on"]⟩],
     cdn := ["unpkg.com/vue", "cdn.jsdelivr.net/npm/vue"] },
   { key := "angular",
     script := [⟨true, rlits ["@angular/core", "angular.min.js", "angular.js"]⟩],
     html := [⟨true, rseq [rchs "ng-version=", rquote, rplus rdigit, .ch '.', rplus rdigit]⟩,
              ⟨true, rlits ["_nghost-", "_ngcontent-", "<app-root"]⟩],
     meta := [⟨"generator", some ⟨true, rchs "angular"⟩⟩] },
   { key := "svelte",
     script := [⟨true, rseq [rchs "svelte", rsep, ranystar, rchs ".js"]⟩],
     html := [⟨false, rseq [rchs "svelte-", rplus (.cls false [('a', 'z'), ('0', '9')])]⟩,
              ⟨true, rchs "hidden={true}"⟩] },
   { key := "nextjs",
     script := [⟨true, rlits ["_next/static", "__next_data__", "next/image"]⟩],
     meta := [⟨"next-head-count", none⟩, ⟨"next-size-adjust", none⟩],
     html := [⟨true, rseq [rchs "<script", rnogt, rchs "_next/static"]⟩,
              ⟨false, rchs "__NEXT_DATA__"⟩],
     headers := [("x-nextjs", rxAny)] },
   { key := "nuxtjs",
     script := [⟨true, rlits ["_nuxt/", "nuxt.app"]⟩],
     html := [⟨true, rseq [rchs "<div", rnogt, rchs "id=", rquote, rchs "__nuxt"]⟩,
              ⟨false, rchs "__NUXT__"⟩] },
   { key := "gatsby",
     meta := [⟨"generator", some ⟨true, rchs "gatsby"⟩⟩],
     html := [⟨true, rseq [rchs "<div", rnogt, rchs "id=", rquote, rchs "___gatsby"]⟩,
              ⟨false, rchs "gatsby-focus-wrapper"⟩] },
   { key := "remix",
     script := [⟨true, rlits ["remix", "@remix-run"]⟩],
     html := [⟨true, rlits ["remix-route", "remix-page"]⟩] },
   { key := "astro",
     script := [⟨true, rlits ["astro", "astro.default"]⟩],
     html := [⟨true, rlits ["astro-root", "astro-island"]⟩] },
   { key := "wordpress",
     meta := [⟨"generator", some ⟨true, rchs "wordpress"⟩⟩],
     html := [⟨true, rchs "wp-content/themes/"⟩, ⟨true, rchs "wp-content/plugins/"⟩,
              ⟨true, rchs "wp-includes/"⟩],
     script := [⟨true, rlits ["wp-emoji-release.min.js", "wp-admin"]⟩],
     link := [⟨true, rlits ["wp-content/themes/", "wp-includes/css/"]⟩] },
   { key := "drupal",
     meta := [⟨"generator", some ⟨true, rchs "drupal"⟩⟩],
     html := [⟨true, rlits ["drupal.settings", "drupal.org"]⟩,
              ⟨false, rchs "sites/default/files"⟩] },
   { key := "joomla",
     meta := [⟨"generator", some ⟨true, rchs "joomla"⟩⟩],
     html := [⟨true, rlits ["/components/com_", "/modules/mod_", "joomla"]⟩] },
   { key := "shopify",
     html := [⟨true, ralts [rchs "cdn.shopify.com", rchs "shopify-buy.js",
                            rseq [rchs "shopify.", ranystar, .ch '=']]⟩],
     headers := [("x-shopify-stage", rxAny)],
     script := [⟨true, rlits ["shopify.shop", "shopify.theme"]⟩] },
   { key := "magento",
     html := [⟨true, rchs "mage.cookies"⟩,
              ⟨true, rseq [rchs "var blank_url", ranystar, rchs "checkout/cart"]⟩],
     script := [⟨true, rlits ["mage/cookies.js", "magento"]⟩],
     meta := [⟨"generator", some ⟨true, rchs "magento"⟩⟩] },
   { key := "wix",
     html := [⟨true, rlits ["static.parastorage.com", "wixstatic.com"]⟩],
     script := [⟨true, rlits ["static.wixstatic.com", "wix-code-viewer"]⟩],
     meta := [⟨"generator", some ⟨true, rchs "wix.com"⟩⟩] },
   { key := "squarespace",
     meta := [⟨"generator", some ⟨true, rchs "squarespace"⟩⟩],
     html := [⟨true, rlits ["squarespace", "sqs-"]⟩] },
   { key := "weebly",
     script := [⟨true, ralts [rseq [rchs "cdn", rplus rdigit, rchs ".editmysite.com"],
                              rchs "weebly.com/weebly"]⟩],
     html := [⟨true, rseq [rchs "class=", rquote, rchs "weebly-"]⟩],
     meta := [⟨"generator", some ⟨true, rchs "weebly"⟩⟩] },
   { key := "typo3",
     meta := [⟨"generator", some ⟨true, rchs "typo3"⟩⟩],
     html := [⟨true, rlits ["typo3", "/typo3"]⟩] },
   { key := "bootstrap",
     script := [⟨true, ralts [rseq [rchs "bootstrap", rsep, rchs ".min.js"],
                              rseq [rchs "bootstrap", rsep, ranystar, rchs ".bundle"]]⟩],
     link := [⟨true, ralts [rseq [rchs "bootstrap", rsep, ranystar, rchs ".min.css"],
                            rseq [rchs "bootstrap", rsep, ranystar, rchs ".css"]]⟩],
     html := [⟨true, rseq [rchs "class=", rquote, .star rnonquote,
                           rlits ["btn-primary", "btn-secondary", "btn-success", "btn-danger"],
                           .star rnonquote, rquote]⟩,
              ⟨true, rseq [rchs "class=", rquote, .star rnonquote,
                           rlits ["container-fluid", "row", "col-"]]⟩] },
   { key := "tailwind",
     link := [⟨true, ralts [rchs "tailwindcss", rseq [rchs "tailwind", ranystar, rchs ".css"]]⟩],
     script := [⟨true, rchs "cdn.tailwindcss.com"⟩],
     html := [⟨true, rseq [rchs "class=", rquote, .star rnonquote,
                           rlits ["bg-gradient-", "from-", "to-", "via-"],
                           .star rnonquote, rquote]⟩,
              ⟨true, rseq [rchs "class=", rquote, .star rnonquote,
                           rlits ["hover:", "focus:", "active:", "group-"]]⟩] },
   { key := "materialui",
     script := [⟨true, rlits ["@mui/material", "material-ui"]⟩],
     html := [⟨true, rlits ["muibutton", "muipaper", "muitypography", "muicontainer"]⟩] },
   { key := "bulma",
     link := [⟨true, ralts [rseq [rchs "bulma",
                                  ropt (rseq [.ch '@', rplus (.cls false [('0', '9'), ('.', '.')])]),
                                  rchs "/css/bulma"],
                            rchs "bulma.min.css"]⟩],
     html := [⟨true, rseq [rchs "class=", rquote, .star rnonquote,
                           rlits ["is-primary", "is-link", "is-info", "is-success"],
                           .star rnonquote, rquote]⟩,
              ⟨true, rseq [rchs "class=", rquote, .star rnonquote,
                           rlits ["hero", "card", "panel", "notification", "message"], .wb]⟩] },
   { key := "foundation",
     script := [⟨true, rseq [rchs "foundation", rsep, ranystar, rchs ".js"]⟩],
     link := [⟨true, rseq [rchs "foundation", rsep, ranystar, rchs ".css"]⟩] },
   { key := "semanticui",
     script := [⟨true, rseq [rchs "semantic", rsep, rchs "ui", ranystar, rchs ".js"]⟩],
     link := [⟨true, rseq [rchs "semantic", rsep, rchs "ui", ranystar, rchs ".css"]⟩] },
   { key := "jquery",
     script := [⟨true, rseq [rchs "jquery", rsep, ranystar, rchs ".js"]⟩] },
   { key := "lodash",
     script := [⟨true, rseq [rchs "lodash", rsep, ranystar, rchs ".js"]⟩] },
   { key := "underscore",
     script := [⟨true, rseq [rchs "underscore", rsep, ranystar, rchs ".js"]⟩] },
   { key := "momentjs",
     script := [⟨true, rseq [rchs "moment", rsep, ranystar, rchs ".js"]⟩] },
   { key := "d3",
     script := [⟨true, rseq [rchs "d3", rsep, ranystar, rchs ".js"]⟩] },
   { key := "threejs",
     script := [⟨true, ralts [rseq [rchs "three", rsep, ranystar, rchs ".js"],
                              rchs "three.min.js"]⟩] },
   { key := "googleanalytics",
     script := [⟨true, rlits ["google-analytics.com", "googletagmanager.com/gtag", "analytics.js"]⟩,
                ⟨true, rlits ["ga(", "gtag("]⟩],
     html := [⟨true, rlits ["gtag(", "_gaq", "ga("]⟩] },
   { key := "gtm",
     script := [⟨true, rchs "googletagmanager.com/gtm.js"⟩],
     html := [⟨true, ralts [rchs "<!-- google tag manager -->",
                            rseq [rchs "noscript", ranystar, rchs "googletagmanager"]]⟩] },
   { key := "hotjar",
     script := [⟨true, ralts [rchs "static.hotjar.com",
                              rseq [rchs "hj", .star (.ch '-'), rchs "script"]]⟩] },
   { key := "mixpanel",
     script := [⟨true, rlits ["cdn.mxpnl.com", "mixpanel.com/track"]⟩] },
   { key := "segment",
     script := [⟨true, rlits ["segment.com", "analytics.js"]⟩] },
   { key := "amplitude",
     script := [⟨true, rchs "cdn.amplitude.com"⟩] },
   { key := "intercom",
     script := [⟨true, rlits ["intercom.io", "app.intercom.com"]⟩] },
   { key := "sentry",
     script := [⟨true, rlits ["sentry.io", "@sentry"]⟩] },
   { key := "vercel",
     headers := [("x-vercel-id", rxAny), ("x-vercel-cache", rxAny), ("x-vercel-skew", rxAny)],
     html := [⟨true, rlits ["vercel", "vercel.com"]⟩] },
   { key := "netlify",
     headers := [("x-nf-request-id", rxAny), ("x-nf-cache", rxAny)],
     html := [⟨true, rlits ["netlify", "netlify.com"]⟩],
     meta := [⟨"generator", some ⟨true, rchs "netlify"⟩⟩] },
   { key := "heroku",
     headers := [("x-heroku", rxAny)],
     html := [⟨true, rchs "heroku.com"⟩] },
   { key := "digitalocean",
     headers := [("server", ⟨true, rlits ["digitalocean", "do-appplatform"]⟩)] },
   { key := "aws",
     headers := [("server", ⟨true, rlits ["amazon", "aws", "elasticloadbalancing"]⟩)],
     html := [⟨true, rlits ["amazonaws.com", "aws.amazon.com"]⟩] },
   { key := "cloudflare",
     headers := [("cf-ray", rxAny), ("cf-cache-status", rxAny)] },
   { key := "cloudfront",
     headers := [("x-amz-cf-pop", rxAny), ("x-amz-cf-id", rxAny)] },
   { key := "fastly",
     headers := [("x-served-by", ⟨true, rseq [rchs "cache-", ranystar, rchs ".fastly.net"]⟩),
                 ("x-fastly-request-id", rxAny)] },
   { key := "akamai_cdn",
     headers := [("x-akamai-transformed", rxAny)] }]

/-! ## WAF corpus (`WAF_PATTERNS`, main.js lines 17-51) -/

/-- One WAF signature. -/
structure WafRule where
  key : String
  headers : List String := []
  cookies : List String := []
  server : Option JsRegex := none
  htmlRe : Option JsRegex := none

/-- The WAF corpus, in declaration order. -/
def WAF_PATTERNS : List WafRule :=
  [{ key := "cloudflare",
     headers := ["cf-ray", "cf-cache-status", "__cfduid", "cf-request-id"],
     cookies := ["__cfduid", "__cf_bm", "__cfwaf"],
     server := some ⟨true, rchs "cloudflare"⟩,
     htmlRe := some ⟨true, rlits ["cloudflare", "cf-html", "cf-error"]⟩ },
   { key := "akamai",
     headers := ["akamai-origin-hop", "akamai-grn", "akamai-request-bc", "x-akamai-transformed"],
     server := some ⟨true, rlits ["akamaighost", "akamaitechnologies"]⟩ },
   { key := "imperva",
     headers := ["x-cdn", "x-iinfo", "x-originating-ip"],
     cookies := ["incap_ses", "visid_incap", "__incap_0"],
     htmlRe := some ⟨true, rlits ["incapsula", "imperva"]⟩ },
   { key := "perimeterx",
     cookies := ["_px3", "_px2", "_pxvid", "_pxAppId"],
     headers := ["x-px-authorization"] },
   { key := "kasada",
     cookies := ["x-kpsdk-ct", "x-kpsdk-cd", "kas.u"] },
   { key := "datadome",
     cookies := ["datadome", "__dd_btid"],
     headers := ["x-datadome-cid"] },
   { key := "awswaf",
     headers := ["x-amzn-waf-action", "x-amzn-waf-flags"] },
   { key := "modsecurity",
     headers := ["mod-security"],
     htmlRe := some ⟨true, rlits ["modsecurity", "mod_security"]⟩ }]

/-! ## WAF scorer (`detectWAF`, main.js lines 503-547) -/

/-- The inline confidence tiering of `detectWAF` (main.js line 544):
`score >= 5 ? 'high' : score >= 3 ? 'medium' : 'low'`. -/
def wafTierFromScore (score : Nat) : String :=
  if score ≥ 5 then "high" else if score ≥ 3 then "medium" else "low"

/-- Per-provider score: 3 per present header name, 2 per signature cookie
name that some cookie starts with (case-insensitive), 2 flat for a server
banner match, 1 flat for an HTML body match (skipped when the body is
empty, mirroring `patterns.html && html`). -/
def wafScore (rule : WafRule) (headers : List (String × String)) (cookies : List String)
    (html : String) : Nat :=
  let s1 := (rule.headers.filter (fun h => (headers.lookup (lcString h)).isSome)).length * 3
  let s2 := (rule.cookies.filter (fun c =>
    cookies.any (fun cookie => strStarts (lcString cookie) (lcString c)))).length * 2
  let s3 := match rule.server with
    | some p => if p.test ((headers.lookup "server").getD "") then 2 else 0
    | none => 0
  let s4 := match rule.htmlRe with
    | some p => if html ≠ "" then (if p.test html then 1 else 0) else 0
    | none => 0
  s1 + s2 + s3 + s4

/-- The detected WAF triple `{name, confidence, score}`. -/
structure WafResult where
  name : String
  confidence : String
  score : Nat
deriving Repr, DecidableEq

/-- `detectWAF(headers, cookies, html)`: positive scorers in declaration
order, then `reduce((a, b) => a[1] > b[1] ? a : b)` — the accumulator is
kept only when *strictly* greater, so a later provider wins ties. -/
def detectWAF (headers : List (String × String)) (cookies : List String) (html : String) :
    Option WafResult :=
  let wafScores := WAF_PATTERNS.foldl (fun acc rule =>
    let s := wafScore rule headers cookies html
    if s > 0 then acc ++ [(rule.key, s)] else acc) []
  match wafScores with
  | [] => none
  | x :: xs =>
    let top := xs.foldl (fun a b => if a.2 > b.2 then a else b) x
    some { name := capitalizeStr top.1, confidence := wafTierFromScore top.2, score := top.2 }

/-! ## Evidence scanner (`analyzeStaticResponse`, main.js lines 552-712)

The parsed HTML document is abstracted as a `Page`: the script elements
(src attribute and inline text), stylesheet link hrefs, meta tags in
document order, the raw markup, the title text, and the successfully
parsed `application/ld+json` payloads (JSON parsing itself is the HTML
query collaborator's job; a failing payload is simply absent). -/

structure Page where
  scripts : List (String × String) := []
  links : List String := []
  metas : List (String × String) := []
  html : String := ""
  titleText : String := ""
  ldjson : List String := []
deriving Repr, DecidableEq

/-- `$('meta[name="n"]').attr('content') || ''`: content of the first
meta tag named `n`, or the empty string. -/
def metaContent (metas : List (String × String)) (n : String) : String :=
  match metas.find? (fun m => m.1 = n) with
  | some m => m.2
  | none => ""

/-- One resolved technology match (`techMatches[key]`). -/
structure TechMatch where
  confidence : Nat
  version : Option String
  category : Category
  displayName : String
  sources : List String
deriving Repr, DecidableEq

/-- The per-rule channel accumulator (confidence, version, sources). -/
structure ChanAcc where
  confidence : Nat := 0
  version : Option String := none
  sources : List String := []
deriving Repr, DecidableEq

/-- JS `Set` insertion: append if not yet present. -/
def addSource (l : List String) (s : String) : List String :=
  if l.contains s then l else l ++ [s]

/-- JS `a || b` on an option: keep the first version found. -/
def keepFirst (v : Option String) (w : Unit → Option String) : Option String :=
  match v with
  | some x => some x
  | none => w ()

/-- Channel sweep for one rule (main.js lines 568-651): scripts (+3 per
element/pattern hit), stylesheet links (+2), meta tags (+2, only when the
rule carries a content pattern), raw-HTML patterns (+2 each), headers
(+2 each), CDN substrings in script src (+1 per literal/element hit).
Versions are extracted from script, link and meta text only. -/
def scanTech (page : Page) (headers : List (String × String)) (rule : TechRule) : ChanAcc :=
  let acc0 : ChanAcc := {}
  let acc1 := page.scripts.foldl (fun acc sc =>
    let fullContent := sc.1 ++ sc.2
    rule.script.foldl (fun (acc : ChanAcc) p =>
      if p.test fullContent then
        { confidence := acc.confidence + 3,
          version := keepFirst acc.version (fun _ => extractVersion fullContent rule.key),
          sources := addSource acc.sources "script" }
      else acc) acc) acc0
  let acc2 := page.links.foldl (fun acc href =>
    rule.link.foldl (fun (acc : ChanAcc) p =>
      if p.test href then
        { confidence := acc.confidence + 2,
          version := keepFirst acc.version (fun _ => extractVersion href rule.key),
          sources := addSource acc.sources "stylesheet" }
      else acc) acc) acc1
  let acc3 := rule.meta.foldl (fun (acc : ChanAcc) m =>
    let content := metaContent page.metas m.name
    match m.content with
    | some p =>
      if p.test content then
        { confidence := acc.confidence + 2,
          version := keepFirst acc.version (fun _ => extractVersion content rule.key),
          sources := addSource acc.sources "meta" }
      else acc
    | none => acc) acc2
  let acc4 := rule.html.foldl (fun (acc : ChanAcc) p =>
    if p.test page.html then
      { acc with confidence := acc.confidence + 2, sources := addSource acc.sources "html" }
    else acc) acc3
  let acc5 := rule.headers.foldl (fun (acc : ChanAcc) hp =>
    let headerValue := (headers.lookup (lcString hp.1)).getD ""
    if hp.2.test headerValue then
      { acc with confidence := acc.confidence + 2, sources := addSource acc.sources "header" }
    else acc) acc4
  rule.cdn.foldl (fun acc cdn =>
    page.scripts.foldl (fun (acc : ChanAcc) sc =>
      if strIncludes sc.1 cdn then
        { acc with confidence := acc.confidence + 1, sources := addSource acc.sources "cdn" }
      else acc) acc) acc5

/-- One surviving CMS candidate (main.js line 661). -/
structure CmsCandidate where
  key : String
  displayName : String
  confidence : Nat
  version : Option String
deriving Repr, DecidableEq

/-- The `technologies` category map (main.js lines 554-562). -/
structure Technologies where
  frontend : List String := []
  backend : List String := []
  cms : List String := []
  analytics : List String := []
  hosting : List String := []
  cdn : List String := []
  libraries : List String := []
deriving Repr, DecidableEq

/-- Selector `technologies[category]`. -/
def Technologies.get (t : Technologies) : Category → List String
  | .frontend => t.frontend
  | .backend => t.backend
  | .cms => t.cms
  | .analytics => t.analytics
  | .hosting => t.hosting
  | .cdn => t.cdn
  | .libraries => t.libraries

/-- `technologies[category].push(s)`. -/
def Technologies.push (t : Technologies) (c : Category) (s : String) : Technologies :=
  match c with
  | .frontend => { t with frontend := t.frontend ++ [s] }
  | .backend => { t with backend := t.backend ++ [s] }
  | .cms => { t with cms := t.cms ++ [s] }
  | .analytics => { t with analytics := t.analytics ++ [s] }
  | .hosting => { t with hosting := t.hosting ++ [s] }
  | .cdn => { t with cdn := t.cdn ++ [s] }
  | .libraries => { t with libraries := t.libraries ++ [s] }

/-- JS object assignment `obj[k] = v` on an insertion-ordered
association list: overwrite in place, else append. -/
def setKey (l : List (String × TechMatch)) (k : String) (v : TechMatch) :
    List (String × TechMatch) :=
  match l with
  | [] => [(k, v)]
  | kv :: rest => if kv.1 = k then (k, v) :: rest else kv :: setKey rest k v

/-- The scan-loop state: `technologies`, `techMatches`, `cmsCandidates`. -/
structure ScanState where
  technologies : Technologies := {}
  techMatches : List (String × TechMatch) := []
  cmsCandidates : List CmsCandidate := []
deriving Repr, DecidableEq

/-- The body of the corpus loop (main.js lines 653-674): threshold the
accumulated confidence, divert cms survivors to `cmsCandidates`, push
every other survivor's formatted string, and record the match. -/
def scanStep (page : Page) (headers : List (String × String)) (st : ScanState)
    (rule : TechRule) : ScanState :=
  let acc := scanTech page headers rule
  let category := getCategoryForTech rule.key
  let threshold := minConfidence category
  let displayName := humanizeTechName rule.key
  if acc.confidence ≥ threshold then
    let techString := formatTechName displayName acc.version
    let st1 :=
      if category = .cms then
        { st with cmsCandidates :=
            st.cmsCandidates ++ [⟨rule.key, displayName, acc.confidence, acc.version⟩] }
      else { st with technologies := st.technologies.push category techString }
    let m : TechMatch := ⟨acc.confidence, acc.version, category, displayName, acc.sources⟩
    { st1 with techMatches := setKey st1.techMatches rule.key m }
  else st

/-- The state after the whole corpus loop. -/
def scanState (page : Page) (headers : List (String × String)) : ScanState :=
  TECH_PATTERNS.foldl (scanStep page headers) {}

/-- Stable insertion for a descending sort by a score projection:
the new element goes after every element scoring at least as much. -/
def insertDescBy {α : Type} (conf : α → Nat) (x : α) : List α → List α
  | [] => [x]
  | y :: ys => if conf y ≥ conf x then y :: insertDescBy conf x ys else x :: y :: ys

/-- Stable descending sort by a score projection, the behaviour of
`arr.sort((a, b) => b.confidence - a.confidence)` (ES2019 sorts are
stable, so this is the unique stable descending reordering). -/
def sortDescBy {α : Type} (conf : α → Nat) (l : List α) : List α :=
  l.foldl (fun acc x => insertDescBy conf x acc) []

/-- CMS single-winner resolution (main.js lines 676-687): sort the
candidates by confidence descending (stable), keep only the top one, and
backfill `techMatches` for it if (impossibly) absent. -/
def cmsResolve (st : ScanState) : Technologies × List (String × TechMatch) :=
  match sortDescBy (fun c : CmsCandidate => c.confidence) st.cmsCandidates with
  | [] => (st.technologies, st.techMatches)
  | topCMS :: _ =>
    let technologies :=
      { st.technologies with cms := [formatTechName topCMS.displayName topCMS.version] }
    let techMatches :=
      if (st.techMatches.lookup topCMS.key).isSome then st.techMatches
      else setKey st.techMatches topCMS.key
        ⟨topCMS.confidence, topCMS.version, .cms, topCMS.displayName, ["html"]⟩
    (technologies, techMatches)

/-- The final dedup sweep (main.js lines 689-698).  Every pushed item is
already a string, so the object-to-string map is the identity. -/
def Technologies.dedupAll (t : Technologies) : Technologies :=
  { frontend := deduplicateArray t.frontend,
    backend := deduplicateArray t.backend,
    cms := deduplicateArray t.cms,
    analytics := deduplicateArray t.analytics,
    hosting := deduplicateArray t.hosting,
    cdn := deduplicateArray t.cdn,
    libraries := deduplicateArray t.libraries }

/-- The scanner's result record. -/
structure AnalyzeOut where
  technologies : Technologies
  structuredData : List String
  techMatches : List (String × TechMatch)
deriving Repr, DecidableEq

/-- `analyzeStaticResponse(html, headers, url)` (main.js lines 552-712).
The `url` parameter is carried but never read, as in the source. -/
def analyzeStaticResponse (page : Page) (headers : List (String × String)) (url : String) :
    AnalyzeOut :=
  let st := scanState page headers
  let (technologies, techMatches) := cmsResolve st
  { technologies := technologies.dedupAll,
    structuredData := page.ldjson,
    techMatches := techMatches }

/-! ## Verdict synthesizer (`buildVerdict`, main.js lines 401-471) -/

/-- A per-category primary pick. -/
structure PrimaryPick where
  key : String
  displayName : String
  version : Option String
  confidence : Nat
deriving Repr, DecidableEq

/-- The four primary slots. -/
structure Primary where
  cms : Option PrimaryPick
  frontend : Option PrimaryPick
  hosting : Option PrimaryPick
  cdn : Option PrimaryPick
deriving Repr, DecidableEq

/-- Inferred platform facts. -/
structure Inferred where
  languages : List String
  databases : List String
deriving Repr, DecidableEq

/-- The synthesized verdict record. -/
structure Verdict where
  primary : Primary
  inferred : Inferred
  confidence : String
  summary : String
deriving Repr, DecidableEq

/-- The `waf` field of a scan record (`wafInfo`, main.js line 884). -/
structure WafInfo where
  detected : Bool
  provider : Option String := none
  confidence : Option String := none
  score : Option Nat := none
deriving Repr, DecidableEq

/-- The `server` field (main.js lines 889-892). -/
structure ServerInfo where
  software : String
  poweredBy : Option String
deriving Repr, DecidableEq

/-- JS `x || null` on an optional string: the empty string collapses to
null. -/
def jsOrNull (v : Option String) : Option String :=
  match v with
  | some s => if s = "" then none else some s
  | none => none

/-- `pickTop(category)` (main.js lines 402-413): filter the match entries
by category (insertion order), stable-sort by confidence descending, and
take the head. -/
def pickTop (techMatches : List (String × TechMatch)) (category : Category) :
    Option PrimaryPick :=
  let candidates := techMatches.filter (fun kv => kv.2.category = category)
  match sortDescBy (fun kv : String × TechMatch => kv.2.confidence) candidates with
  | [] => none
  | (key, meta) :: _ =>
    some { key := key,
           displayName := if meta.displayName = "" then humanizeTechName key else meta.displayName,
           version := jsOrNull meta.version,
           confidence := meta.confidence }

/-- `addInference` (main.js lines 427-433). -/
def addInference (inf : Inferred) (key : Option String) : Inferred :=
  match key with
  | none => inf
  | some k =>
    match STACK_INFERENCES.lookup (lcString k) with
    | some entry =>
      { languages := inf.languages ++ entry.1, databases := inf.databases ++ entry.2 }
    | none => inf

/-- The `topScore` computation (main.js lines 458-463):
`Math.max` of the four primary confidences, absent picks counting 0. -/
def maxPrimaryScore (p : Primary) : Nat :=
  max (max ((p.cms.map PrimaryPick.confidence).getD 0)
           ((p.frontend.map PrimaryPick.confidence).getD 0))
      (max ((p.hosting.map PrimaryPick.confidence).getD 0)
           ((p.cdn.map PrimaryPick.confidence).getD 0))

/-- `buildVerdict(technologies, techMatches, waf, serverInfo)` in
state-passing form.  The function only ever *reads* its arguments —
`Object.entries` copies the match map and `sort` acts on that copy, and
the `inferred` arrays are freshly allocated — so the final state of the
four input objects, returned as the second component to make mutation
observable, is the input itself.  The `technologies` argument is never
read, as in the source. -/
def buildVerdictSt (technologies : Technologies) (techMatches : List (String × TechMatch))
    (waf : WafInfo) (serverInfo : ServerInfo) :
    Verdict × Technologies × List (String × TechMatch) × WafInfo × ServerInfo :=
  let primary : Primary :=
    { cms := pickTop techMatches .cms,
      frontend := pickTop techMatches .frontend,
      hosting := pickTop techMatches .hosting,
      cdn := pickTop techMatches .cdn }
  let inf0 : Inferred := ⟨[], []⟩
  let inf1 := addInference inf0 (primary.cms.map PrimaryPick.key)
  let inf2 := addInference inf1 (primary.frontend.map PrimaryPick.key)
  let serverBlob := lcString (serverInfo.software ++ " " ++ (serverInfo.poweredBy.getD ""))
  let langs := inf2.languages
  let langs := if strIncludes serverBlob "php" then langs ++ ["PHP"] else langs
  let langs := if strIncludes serverBlob "asp.net" then langs ++ [".NET"] else langs
  let langs := if strIncludes serverBlob "node" then langs ++ ["Node.js"] else langs
  let langs := if strIncludes serverBlob "python" then langs ++ ["Python"] else langs
  let langs := if strIncludes serverBlob "ruby" then langs ++ ["Ruby"] else langs
  let langs := if strIncludes serverBlob "laravel" then langs ++ ["PHP"] else langs
  let inferred : Inferred :=
    ⟨deduplicateArray langs, deduplicateArray inf2.databases⟩
  let fmtPick := fun (label : String) (p : Option PrimaryPick) =>
    match p with
    | some pick => [label ++ ": " ++ formatTechName pick.displayName pick.version]
    | none => []
  let summaryParts :=
    fmtPick "CMS" primary.cms ++ fmtPick "Frontend" primary.frontend ++
    fmtPick "Hosting" primary.hosting ++ fmtPick "CDN" primary.cdn ++
    (if waf.detected then
      ["WAF: " ++ (waf.provider.getD "") ++ " (" ++ (waf.confidence.getD "") ++ ")"]
     else []) ++
    (if inferred.languages ≠ [] then ["Language: " ++ joinWith ", " inferred.languages] else []) ++
    (if inferred.databases ≠ [] then ["Database: " ++ joinWith ", " inferred.databases] else [])
  let topScore := maxPrimaryScore primary
  let verdict : Verdict :=
    { primary := primary,
      inferred := inferred,
      confidence := confidenceFromScore topScore,
      summary := joinWith " | " summaryParts }
  (verdict, technologies, techMatches, waf, serverInfo)

/-- The verdict itself. -/
def buildVerdict (technologies : Technologies) (techMatches : List (String × TechMatch))
    (waf : WafInfo) (serverInfo : ServerInfo) : Verdict :=
  (buildVerdictSt technologies techMatches waf serverInfo).1

/-! ## Tier-2 runtime-global merge (main.js lines 987-1003) -/

/-- Merging one browser-detected display name into
`(technologies, techMatches)`: only frontend-category keys are pushed
into a technologies array (with a case-insensitive membership guard);
every mapped key gets its match confidence raised to at least 3 and the
`window` source recorded. -/
def mergeBrowserTech (st : Technologies × List (String × TechMatch)) (tech : String) :
    Technologies × List (String × TechMatch) :=
  match mapBrowserTechToKey tech with
  | none => st
  | some key =>
    let displayName := humanizeTechName key
    let formatted := formatTechName displayName none
    let category := getCategoryForTech key
    let technologies :=
      if category = .frontend ∧
          ¬ st.1.frontend.any (fun item => lcString item = lcString formatted) then
        st.1.push .frontend formatted
      else st.1
    let existing := (st.2.lookup key).getD
      ⟨0, none, category, displayName, []⟩
    let updated : TechMatch :=
      { existing with
        confidence := max existing.confidence 3,
        sources := deduplicateArray (existing.sources ++ ["window"]) }
    (technologies, setKey st.2 key updated)

/-- The whole `browserTechs.forEach` merge loop. -/
def mergeBrowserTechs (browserTechs : List String)
    (st : Technologies × List (String × TechMatch)) :
    Technologies × List (String × TechMatch) :=
  browserTechs.foldl mergeBrowserTech st

/-! ## Orchestrator (main.js lines 840-1031)

The crawling infrastructure is abstracted by outcome functions: `fetch`
models the Cheerio request (network failure reaches only
`failedRequestHandler`, which records nothing; an exception inside the
handler's `try` produces a failed record; success yields the parsed page,
response headers, cookies, and the endpoint-probe outcome, the last being
network work of the probe collaborator), `render` models the Playwright
pass (`none` for any render/navigation/evaluation error, which the
handler's `catch` only logs).  The shared result list and the
append-only `Dataset` sink are threaded explicitly. -/

/-- The endpoint-probe outcome (`apis`). -/
structure ApiInfo where
  graphql : Bool := false
  rest : Bool := false
  endpoints : List String := []
deriving Repr, DecidableEq

/-- The `metadata` field. -/
structure Metadata where
  title : Option String := none
  description : Option String := none
  structuredData : List String := []
deriving Repr, DecidableEq

/-- One output record.  A failed record carries only url, status, error
and timestamp in the JSON; the remaining fields here hold their default
values, which is also what the Tier-2 `||` fallbacks for `server` and
`waf` produce. -/
structure ScanRecord where
  url : String
  status : String
  technologies : Technologies := {}
  waf : WafInfo := { detected := false }
  apis : ApiInfo := {}
  metadata : Metadata := {}
  server : ServerInfo := ⟨"Unknown", none⟩
  detectionMethod : String := ""
  verdict : Option Verdict := none
  techMatches : List (String × TechMatch) := []
  scannedAt : String := ""
  error : Option String := none
deriving Repr, DecidableEq

/-- JS `x || d` for a looked-up header value. -/
def jsOrDefault (v : Option String) (d : String) : String :=
  match v with
  | some s => if s = "" then d else s
  | none => d

/-- First meta tag named `n`, content attribute (absent tag gives none). -/
def metaAttr (metas : List (String × String)) (n : String) : Option String :=
  (metas.find? (fun m => m.1 = n)).map Prod.snd

/-- `deduplicateResult` (main.js lines 816-837): deduplicate the
technologies arrays, the probed endpoints, and the inferred lists. -/
def deduplicateResult (r : ScanRecord) : ScanRecord :=
  let r := { r with technologies := r.technologies.dedupAll }
  let r := { r with apis := { r.apis with endpoints := deduplicateArray r.apis.endpoints } }
  match r.verdict with
  | some v =>
    { r with verdict := some { v with inferred :=
        ⟨deduplicateArray v.inferred.languages, deduplicateArray v.inferred.databases⟩ } }
  | none => r

/-- What one Cheerio fetch observes. -/
structure FetchObs where
  page : Page := {}
  headers : List (String × String) := []
  cookies : List String := []
  apis : ApiInfo := {}
deriving Repr, DecidableEq

/-- Outcome of the Tier-1 request for one URL. -/
inductive FetchOutcome where
  | netFail
  | crashed (msg : String)
  | ok (obs : FetchObs)
deriving Repr, DecidableEq

/-- The Tier-1 `requestHandler` success path (main.js lines 875-933):
WAF scoring, static analysis, server info, verdict, final dedup. -/
def tier1Handle (now : String) (url : String) (obs : FetchObs) : ScanRecord :=
  let headers := obs.headers
  let waf := detectWAF headers obs.cookies obs.page.html
  let wafInfo : WafInfo :=
    match waf with
    | some w => ⟨true, some w.name, some w.confidence, some w.score⟩
    | none => { detected := false }
  let out := analyzeStaticResponse obs.page headers url
  let serverInfo : ServerInfo :=
    ⟨jsOrDefault (headers.lookup "server") "Unknown", jsOrNull (headers.lookup "x-powered-by")⟩
  let result : ScanRecord :=
    { url := url, status := "success",
      technologies := out.technologies,
      waf := wafInfo,
      apis := obs.apis,
      metadata := ⟨jsOrNull (some obs.page.titleText),
                   jsOrNull (metaAttr obs.page.metas "description"),
                   out.structuredData⟩,
      server := serverInfo,
      detectionMethod := "static",
      verdict := some (buildVerdict out.technologies out.techMatches wafInfo serverInfo),
      techMatches := out.techMatches,
      scannedAt := now }
  deduplicateResult result

/-- The failed record pushed by the Tier-1 catch block (main.js line 944). -/
def failedRecord (now url msg : String) : ScanRecord :=
  { url := url, status := "failed", error := some msg, scannedAt := now }

/-- One Tier-1 crawl step: the handler pushes the same record to the
shared results list and the `Dataset` sink; a network-level failure
reaches only `failedRequestHandler`, which records nothing. -/
def tier1Step (now : String) (fetch : String → FetchOutcome)
    (acc : List ScanRecord × List ScanRecord) (url : String) :
    List ScanRecord × List ScanRecord :=
  match fetch url with
  | .netFail => acc
  | .crashed msg =>
    let failed := failedRecord now url msg
    (acc.1 ++ [failed], acc.2 ++ [failed])
  | .ok obs =>
    let clean := tier1Handle now url obs
    (acc.1 ++ [clean], acc.2 ++ [clean])

/-- Phase 1 over the URL list. -/
def runTier1 (now : String) (fetch : String → FetchOutcome) (urls : List String) :
    List ScanRecord × List ScanRecord :=
  urls.foldl (tier1Step now fetch) ([], [])

/-- Total technology count: `Object.values(r.technologies).flat().length`. -/
def totalTechCount (t : Technologies) : Nat :=
  (t.frontend ++ t.backend ++ t.cms ++ t.analytics ++ t.hosting ++ t.cdn ++ t.libraries).length

/-- The Tier-2 selection (main.js lines 959-961): successful records with
zero technologies across all categories. -/
def spaUrls (results : List ScanRecord) : List String :=
  (results.filter (fun r => r.status = "success" ∧ totalTechCount r.technologies = 0)).map
    ScanRecord.url

/-- What one Playwright render observes. -/
structure RenderObs where
  page : Page := {}
  headers : List (String × String) := []
  browserTechs : List String := []
deriving Repr, DecidableEq

/-- The in-place Tier-2 record update (main.js lines 1005-1018): the
rendered analysis and merged runtime evidence replace `technologies`,
`structuredData`, `verdict` (rebuilt from the record's own waf and
server info), the match details, and flip `detectionMethod` to
`browser`; `deduplicateResult` then rewrites the arrays in place. -/
def tier2Update (a : AnalyzeOut) (merged : Technologies × List (String × TechMatch))
    (old : ScanRecord) : ScanRecord :=
  deduplicateResult
    { old with
      technologies := merged.1,
      metadata := { old.metadata with structuredData := a.structuredData },
      verdict := some (buildVerdict merged.1 merged.2 old.waf old.server),
      techMatches := merged.2,
      detectionMethod := "browser" }

/-- `results.findIndex(r => r.url === url)` followed by the in-place
update: returns the new list and the updated record when found. -/
def updateFirst (results : List ScanRecord) (url : String) (f : ScanRecord → ScanRecord) :
    List ScanRecord × Option ScanRecord :=
  match results with
  | [] => ([], none)
  | r :: rest =>
    if r.url = url then (f r :: rest, some (f r))
    else
      let x := updateFirst rest url f
      (r :: x.1, x.2)

/-- The record rewrite a successful render performs: rendered static
analysis, runtime merge, then the in-place update. -/
def tier2Fresh (url : String) (obs : RenderObs) (old : ScanRecord) : ScanRecord :=
  let a := analyzeStaticResponse obs.page obs.headers url
  tier2Update a (mergeBrowserTechs obs.browserTechs (a.technologies, a.techMatches)) old

/-- The Tier-2 `requestHandler` for one URL (main.js lines 974-1026).
`none` models any render/navigation/evaluation error: the `catch` block
only logs, leaving both the results list and the sink untouched. -/
def tier2Handle (render : String → Option RenderObs) (st : List ScanRecord × List ScanRecord)
    (url : String) : List ScanRecord × List ScanRecord :=
  match render url with
  | none => st
  | some obs =>
    match updateFirst st.1 url (tier2Fresh url obs) with
    | (results', some clean) => (results', st.2 ++ [clean])
    | (results', none) => (results', st.2)

/-- The URLs handed to the Playwright crawler. -/
def renderedUrls (now : String) (urls : List String) (fetch : String → FetchOutcome)
    (usePlaywrightFallback : Bool) : List String :=
  if usePlaywrightFallback then spaUrls (runTier1 now fetch urls).1 else []

/-- The whole two-phase batch: Tier 1 over every URL, then (when the
fallback is enabled) Tier 2 over the zero-technology successes.  Returns
(final results list, final sink contents). -/
def runScan (now : String) (urls : List String) (fetch : String → FetchOutcome)
    (render : String → Option RenderObs) (usePlaywrightFallback : Bool) :
    List ScanRecord × List ScanRecord :=
  let st := runTier1 now fetch urls
  if usePlaywrightFallback then
    (spaUrls st.1).foldl (tier2Handle render) st
  else st

/-! ## Property vocabulary and concrete inputs -/

/-- Two strings differ case-insensitively. -/
def CaseDistinct (a b : String) : Prop := lcString a ≠ lcString b

/-- First-maximum characterization: `x` occurs in `l`, everything before
it scores strictly less, everything after at most as much. -/
def IsFirstMaxBy {α : Type} (conf : α → Nat) (l : List α) (x : α) : Prop :=
  ∃ l₁ l₂, l = l₁ ++ x :: l₂ ∧ (∀ y ∈ l₁, conf y < conf x) ∧ ∀ y ∈ l₂, conf y ≤ conf x

/-- Invariant carried through the sort fold: the accumulator's head is the
first maximum of the processed prefix. -/
def SortHeadInv {α : Type} (conf : α → Nat) (p acc : List α) : Prop :=
  (acc = [] → p = []) ∧ ∀ x rest, acc = x :: rest → IsFirstMaxBy conf p x

/-- Every sink entry is one of the three record shapes the two handlers
can push. -/
def SinkShape (now : String) (r : ScanRecord) : Prop :=
  (∃ url msg, r = failedRecord now url msg) ∨
  (∃ url obs, r = tier1Handle now url obs) ∨
  (∃ url obs old, r = tier2Fresh url obs old)

/-- The JS `reduce((a, b) => a[1] > b[1] ? a : b)` over the tail. -/
def pickMax (a : String × Nat) (l : List (String × Nat)) : String × Nat :=
  l.foldl (fun a b => if a.2 > b.2 then a else b) a

/-- The minimal document of the WordPress scenario: the generator meta
tag and a script element whose src contains `wp-content/themes/x.js`,
with the raw markup containing both tags. -/
def wordpressScenarioPage : Page :=
  { scripts := [("wp-content/themes/x.js", "")],
    metas := [("generator", "WordPress 6.3")],
    html := "<meta name=\"generator\" content=\"WordPress 6.3\"><script src=\"wp-content/themes/x.js\"></script>" }

/-- A resolved match map whose only entry is a cms pick with score 5. -/
def cexC2Matches : List (String × TechMatch) :=
  [("wordpress", ⟨5, none, .cms, "Wordpress", ["meta"]⟩)]

/-- A batch where only `a` fetches (an empty page) and `b` dies on the
network. -/
def cexC7Fetch : String → FetchOutcome :=
  fun u => if u = "a" then .ok {} else .netFail

/-- A render pass that succeeds for `a`, exposing the `React` global. -/
def cexC7Render : String → Option RenderObs :=
  fun u => if u = "a" then some { browserTechs := ["React"] } else none

/-! ## Helper lemmas -/

/-- Unfold `dedupAux` by the membership proposition rather than the
boolean `contains` test. -/
theorem dedupAux_cons (seen : List String) (y : String) (ys : List String) :
    dedupAux seen (y :: ys) =
      if lcString y ∈ seen then dedupAux seen ys
      else y :: dedupAux (lcString y :: seen) ys := by
  simp only [dedupAux]
  by_cases hy : lcString y ∈ seen
  · simp [List.elem_eq_true_of_mem hy, hy]
  · have : seen.contains (lcString y) = false := by
      cases hc : seen.contains (lcString y)
      · rfl
      · exact absurd (List.mem_of_elem_eq_true hc) hy
    simp [this, hy]

theorem mem_dedupAux {seen : List String} {l : List String} {x : String}
    (h : x ∈ dedupAux seen l) : x ∈ l ∧ lcString x ∉ seen := by
  induction l generalizing seen with
  | nil => simp [dedupAux] at h
  | cons y ys ih =>
    rw [dedupAux_cons] at h
    by_cases hy : lcString y ∈ seen
    · rw [if_pos hy] at h
      obtain ⟨h1, h2⟩ := ih h
      exact ⟨List.mem_cons_of_mem _ h1, h2⟩
    · rw [if_neg hy] at h
      rcases List.mem_cons.mp h with rfl | h
      · exact ⟨List.mem_cons_self _ _, hy⟩
      · obtain ⟨h1, h2⟩ := ih h
        simp only [List.mem_cons, not_or] at h2
        exact ⟨List.mem_cons_of_mem _ h1, h2.2⟩

theorem dedupAux_pairwise (seen : List String) (l : List String) :
    (dedupAux seen l).Pairwise CaseDistinct := by
  induction l generalizing seen with
  | nil => exact List.Pairwise.nil
  | cons y ys ih =>
    rw [dedupAux_cons]
    by_cases hy : lcString y ∈ seen
    · rw [if_pos hy]; exact ih seen
    · rw [if_neg hy]
      refine List.Pairwise.cons (fun z hz => ?_) (ih _)
      have := (mem_dedupAux hz).2
      simp only [List.mem_cons, not_or] at this
      exact fun he => this.1 he.symm

theorem dedupAux_first {seen : List String} {l : List String} {x : String}
    (h : x ∈ dedupAux seen l) :
    ∃ l₁ l₂, l = l₁ ++ x :: l₂ ∧ ∀ y ∈ l₁, lcString y ∈ seen ∨ lcString y ≠ lcString x := by
  induction l generalizing seen with
  | nil => simp [dedupAux] at h
  | cons y ys ih =>
    rw [dedupAux_cons] at h
    by_cases hy : lcString y ∈ seen
    · rw [if_pos hy] at h
      obtain ⟨l₁, l₂, rfl, hall⟩ := ih h
      refine ⟨y :: l₁, l₂, rfl, ?_⟩
      intro z hz
      rcases List.mem_cons.mp hz with rfl | hz
      · exact Or.inl hy
      · exact hall z hz
    · rw [if_neg hy] at h
      rcases List.mem_cons.mp h with rfl | h
      · exact ⟨[], ys, rfl, by simp⟩
      · obtain ⟨l₁, l₂, rfl, hall⟩ := ih h
        have hx2 := (mem_dedupAux h).2
        simp only [List.mem_cons, not_or] at hx2
        refine ⟨y :: l₁, l₂, rfl, ?_⟩
        intro z hz
        rcases List.mem_cons.mp hz with rfl | hz
        · exact Or.inr (fun he => hx2.1 he.symm)
        · rcases hall z hz with hin | hne
          · rcases List.mem_cons.mp hin with he | hin
            · exact Or.inr (fun hc => hx2.1 (he ▸ hc).symm)
            · exact Or.inl hin
          · exact Or.inr hne

theorem dedupAux_length_le (seen : List String) (l : List String) :
    (dedupAux seen l).length ≤ l.length := by
  induction l generalizing seen with
  | nil => simp [dedupAux]
  | cons y ys ih =>
    rw [dedupAux_cons]
    by_cases hy : lcString y ∈ seen
    · rw [if_pos hy]
      exact Nat.le_succ_of_le (ih seen)
    · rw [if_neg hy, List.length_cons, List.length_cons]
      exact Nat.succ_le_succ (ih _)

theorem deduplicateArray_pairwise (l : List String) :
    (deduplicateArray l).Pairwise CaseDistinct :=
  dedupAux_pairwise [] l

theorem deduplicateArray_length_le (l : List String) :
    (deduplicateArray l).length ≤ l.length :=
  dedupAux_length_le [] l

theorem deduplicateArray_first {l : List String} {x : String}
    (h : x ∈ deduplicateArray l) :
    ∃ l₁ l₂, l = l₁ ++ x :: l₂ ∧ ∀ y ∈ l₁, lcString y ≠ lcString x := by
  obtain ⟨l₁, l₂, rfl, hall⟩ := dedupAux_first h
  refine ⟨l₁, l₂, rfl, fun y hy => ?_⟩
  rcases hall y hy with hin | hne
  · simp at hin
  · exact hne

/-- `push` on a category different from `c` leaves `get c` unchanged. -/
theorem push_get_ne (t : Technologies) (c c' : Category) (s : String) (h : c' ≠ c) :
    (t.push c' s).get c = t.get c := by
  cases c <;> cases c' <;> simp_all [Technologies.push, Technologies.get]

theorem push_get_self (t : Technologies) (c : Category) (s : String) :
    (t.push c s).get c = t.get c ++ [s] := by
  cases c <;> simp [Technologies.push, Technologies.get]

/-- `dedupAll` acts as `deduplicateArray` on every selector. -/
theorem dedupAll_get (t : Technologies) (c : Category) :
    t.dedupAll.get c = deduplicateArray (t.get c) := by
  cases c <;> rfl

/-- `List.lookup` unfolded on a cons cell by propositional equality. -/
theorem lookup_cons_tm (a k : String) (v : TechMatch) (rest : List (String × TechMatch)) :
    List.lookup a ((k, v) :: rest) = if a = k then some v else List.lookup a rest := by
  by_cases h : a = k
  · subst h; simp [List.lookup]
  · have : (a == k) = false := beq_eq_false_iff_ne.mpr h
    simp [List.lookup, this, h]

theorem setKey_lookup_self (l : List (String × TechMatch)) (k : String) (v : TechMatch) :
    (setKey l k v).lookup k = some v := by
  induction l with
  | nil => simp [setKey, lookup_cons_tm]
  | cons kv rest ih =>
    simp only [setKey]
    by_cases hk : kv.1 = k
    · simp [hk, lookup_cons_tm]
    · rw [if_neg hk]
      obtain ⟨k0, v0⟩ := kv
      simp only at hk
      rw [lookup_cons_tm, if_neg (Ne.symm hk)]
      exact ih

theorem setKey_lookup_ne (l : List (String × TechMatch)) (k k' : String) (v : TechMatch)
    (h : k' ≠ k) : (setKey l k v).lookup k' = l.lookup k' := by
  induction l with
  | nil => simp [setKey, lookup_cons_tm, h]
  | cons kv rest ih =>
    obtain ⟨k0, v0⟩ := kv
    simp only [setKey]
    by_cases hk : k0 = k
    · subst hk
      rw [if_pos rfl, lookup_cons_tm, if_neg h, lookup_cons_tm, if_neg h]
    · rw [if_neg hk, lookup_cons_tm, lookup_cons_tm]
      by_cases hk' : k' = k0
      · rw [if_pos hk', if_pos hk']
      · rw [if_neg hk', if_neg hk']
        exact ih

theorem insertDescBy_ne_nil {α : Type} (conf : α → Nat) (x : α) (l : List α) :
    insertDescBy conf x l ≠ [] := by
  cases l with
  | nil => simp [insertDescBy]
  | cons y ys =>
    simp only [insertDescBy]
    by_cases h : conf y ≥ conf x <;> simp [h]

theorem sortHeadInv_step {α : Type} (conf : α → Nat) (p acc : List α) (y : α)
    (h : SortHeadInv conf p acc) : SortHeadInv conf (p ++ [y]) (insertDescBy conf y acc) := by
  obtain ⟨hnil, hhead⟩ := h
  constructor
  · intro hc
    exact absurd hc (insertDescBy_ne_nil conf y acc)
  · intro x rest hx
    cases acc with
    | nil =>
      have hp : p = [] := hnil rfl
      subst hp
      simp only [insertDescBy] at hx
      obtain ⟨rfl, rfl⟩ : y = x ∧ ([] : List α) = rest := by
        constructor <;> simp_all
      exact ⟨[], [], rfl, by simp, by simp⟩
    | cons h0 t0 =>
      obtain ⟨l₁, l₂, hpeq, hlt, hle⟩ := hhead h0 t0 rfl
      simp only [insertDescBy] at hx
      by_cases hc : conf h0 ≥ conf y
      · simp only [hc, if_pos] at hx
        obtain ⟨rfl, -⟩ : h0 = x ∧ insertDescBy conf y t0 = rest := by
          constructor <;> simp_all
        refine ⟨l₁, l₂ ++ [y], by simp [hpeq], hlt, ?_⟩
        intro z hz
        rcases List.mem_append.mp hz with hz | hz
        · exact hle z hz
        · simp only [List.mem_singleton] at hz
          subst hz
          exact hc
      · simp only [hc, if_neg, Bool.false_eq_true, not_false_iff] at hx
        obtain ⟨rfl, -⟩ : y = x ∧ h0 :: t0 = rest := by
          constructor <;> simp_all
        push_neg at hc
        refine ⟨p, [], by simp, ?_, by simp⟩
        intro z hz
        rw [hpeq] at hz
        rcases List.mem_append.mp hz with hz | hz
        · exact lt_trans (hlt z hz) hc
        · rcases List.mem_cons.mp hz with rfl | hz
          · exact hc
          · exact lt_of_le_of_lt (hle z hz) hc

theorem sortFold_inv {α : Type} (conf : α → Nat) (l : List α) :
    ∀ (p acc : List α), SortHeadInv conf p acc →
      SortHeadInv conf (p ++ l) (l.foldl (fun a x => insertDescBy conf x a) acc) := by
  induction l with
  | nil => intro p acc h; simpa using h
  | cons y ys ih =>
    intro p acc h
    have step := sortHeadInv_step conf p acc y h
    have := ih (p ++ [y]) (insertDescBy conf y acc) step
    simpa [List.append_assoc] using this

theorem sortDescBy_head {α : Type} (conf : α → Nat) (l : List α) (x : α) (rest : List α)
    (h : sortDescBy conf l = x :: rest) : IsFirstMaxBy conf l x := by
  have base : SortHeadInv conf [] [] := ⟨fun _ => rfl, fun x rest h => by cases h⟩
  have := sortFold_inv conf l [] [] base
  simp only [List.nil_append] at this
  exact this.2 x rest h

theorem deduplicateArray_singleton (x : String) : deduplicateArray [x] = [x] := rfl

/-! ### Scan-loop invariants -/

theorem scanStep_tech_cms (page : Page) (headers : List (String × String)) (st : ScanState)
    (rule : TechRule) : (scanStep page headers st rule).technologies.cms = st.technologies.cms := by
  simp only [scanStep]
  split
  · split
    · rfl
    · rename_i hc
      have : (st.technologies.push (getCategoryForTech rule.key)
          (formatTechName (humanizeTechName rule.key) (scanTech page headers rule).version)).get
            Category.cms = st.technologies.get Category.cms :=
        push_get_ne _ _ _ _ (fun h => hc h)
      exact this
  · rfl

theorem scanFold_tech_cms (page : Page) (headers : List (String × String)) :
    ∀ (rules : List TechRule) (st : ScanState),
      ((rules.foldl (scanStep page headers) st).technologies.cms = st.technologies.cms)
  | [], st => rfl
  | r :: rs, st => by
    rw [List.foldl_cons, scanFold_tech_cms page headers rs, scanStep_tech_cms]

theorem scanState_tech_cms (page : Page) (headers : List (String × String)) :
    (scanState page headers).technologies.cms = [] :=
  scanFold_tech_cms page headers TECH_PATTERNS {}

theorem scanStep_candidates (page : Page) (headers : List (String × String)) (st : ScanState)
    (rule : TechRule) :
    (scanStep page headers st rule).cmsCandidates = st.cmsCandidates ∨
    ∃ c : CmsCandidate, 3 ≤ c.confidence ∧
      (scanStep page headers st rule).cmsCandidates = st.cmsCandidates ++ [c] := by
  simp only [scanStep]
  split
  · rename_i hconf
    split
    · rename_i hc
      refine Or.inr ⟨_, ?_, rfl⟩
      have : minConfidence (getCategoryForTech rule.key) = 3 := by rw [hc]; rfl
      calc (3 : Nat) = minConfidence (getCategoryForTech rule.key) := this.symm
        _ ≤ (scanTech page headers rule).confidence := hconf
    · exact Or.inl rfl
  · exact Or.inl rfl

theorem scanFold_candidates_ge3 (page : Page) (headers : List (String × String)) :
    ∀ (rules : List TechRule) (st : ScanState),
      (∀ c ∈ st.cmsCandidates, 3 ≤ c.confidence) →
      ∀ c ∈ (rules.foldl (scanStep page headers) st).cmsCandidates, 3 ≤ c.confidence
  | [], st, h => h
  | r :: rs, st, h => by
    rw [List.foldl_cons]
    refine scanFold_candidates_ge3 page headers rs _ ?_
    rcases scanStep_candidates page headers st r with heq | ⟨c, hc3, heq⟩
    · rw [heq]; exact h
    · rw [heq]
      intro c' hc'
      rcases List.mem_append.mp hc' with hc' | hc'
      · exact h c' hc'
      · simp only [List.mem_singleton] at hc'
        subst hc'
        exact hc3

theorem scanState_candidates_ge3 (page : Page) (headers : List (String × String)) :
    ∀ c ∈ (scanState page headers).cmsCandidates, 3 ≤ c.confidence :=
  scanFold_candidates_ge3 page headers TECH_PATTERNS {} (by intro c hc; simp at hc)

/-- The analyzer's cms slot: empty when no candidate survived, otherwise
exactly the formatted first maximum of the candidate list. -/
theorem analyze_cms_spec (page : Page) (headers : List (String × String)) (url : String) :
    ((analyzeStaticResponse page headers url).technologies.cms.length ≤ 1) ∧
    (∀ s ∈ (analyzeStaticResponse page headers url).technologies.cms,
      ∃ c : CmsCandidate,
        IsFirstMaxBy (fun c : CmsCandidate => c.confidence)
          ((scanState page headers).cmsCandidates) c ∧
        s = formatTechName c.displayName c.version) := by
  have hcms : (analyzeStaticResponse page headers url).technologies.cms =
      deduplicateArray ((cmsResolve (scanState page headers)).1.cms) := by
    show ((cmsResolve (scanState page headers)).1.dedupAll).cms = _
    have := dedupAll_get (cmsResolve (scanState page headers)).1 Category.cms
    exact this
  rw [hcms]
  unfold cmsResolve
  rcases hsort : sortDescBy (fun c : CmsCandidate => c.confidence)
      (scanState page headers).cmsCandidates with _ | ⟨top, rest⟩
  · simp only [hsort]
    rw [scanState_tech_cms]
    exact ⟨by simp [deduplicateArray, dedupAux], by simp [deduplicateArray, dedupAux]⟩
  · simp only [hsort]
    rw [deduplicateArray_singleton]
    refine ⟨by simp, ?_⟩
    intro s hs
    simp only [List.mem_singleton] at hs
    subst hs
    exact ⟨top, sortDescBy_head _ _ _ _ hsort, rfl⟩

/-! ### Runtime-merge frame lemmas -/

theorem mergeBrowserTech_get_ne (st : Technologies × List (String × TechMatch)) (tech : String)
    (c : Category) (h : c ≠ .frontend) :
    (mergeBrowserTech st tech).1.get c = st.1.get c := by
  unfold mergeBrowserTech
  rcases mapBrowserTechToKey tech with _ | key
  · rfl
  · simp only
    split
    · exact push_get_ne _ _ _ _ (Ne.symm h)
    · rfl

theorem mergeBrowserTechs_get_ne (l : List String) (c : Category) (h : c ≠ .frontend) :
    ∀ st : Technologies × List (String × TechMatch),
      (mergeBrowserTechs l st).1.get c = st.1.get c := by
  induction l with
  | nil => intro st; rfl
  | cons t ts ih =>
    intro st
    show (mergeBrowserTechs ts (mergeBrowserTech st t)).1.get c = _
    rw [ih, mergeBrowserTech_get_ne st t c h]

theorem mergeBrowserTech_frontend (st : Technologies × List (String × TechMatch)) (tech : String)
    (x : String) (hx : x ∈ (mergeBrowserTech st tech).1.frontend) :
    x ∈ st.1.frontend ∨
    ∃ k, mapBrowserTechToKey tech = some k ∧ getCategoryForTech k = .frontend ∧
      x = formatTechName (humanizeTechName k) none := by
  unfold mergeBrowserTech at hx
  rcases hk : mapBrowserTechToKey tech with _ | key
  · rw [hk] at hx; exact Or.inl hx
  · rw [hk] at hx
    simp only at hx
    by_cases hcond : getCategoryForTech key = Category.frontend ∧
        ¬ st.1.frontend.any (fun item => lcString item = lcString
          (formatTechName (humanizeTechName key) none))
    · rw [if_pos hcond] at hx
      have : (st.1.push .frontend (formatTechName (humanizeTechName key) none)).frontend =
          st.1.frontend ++ [formatTechName (humanizeTechName key) none] := rfl
      rw [this] at hx
      rcases List.mem_append.mp hx with hx | hx
      · exact Or.inl hx
      · simp only [List.mem_singleton] at hx
        exact Or.inr ⟨key, rfl, hcond.1, hx⟩
    · rw [if_neg hcond] at hx
      exact Or.inl hx

theorem mergeBrowserTechs_frontend (l : List String) :
    ∀ (st : Technologies × List (String × TechMatch)) (x : String),
      x ∈ (mergeBrowserTechs l st).1.frontend →
      x ∈ st.1.frontend ∨
      ∃ t ∈ l, ∃ k, mapBrowserTechToKey t = some k ∧ getCategoryForTech k = .frontend ∧
        x = formatTechName (humanizeTechName k) none := by
  induction l with
  | nil => intro st x hx; exact Or.inl hx
  | cons t ts ih =>
    intro st x hx
    rcases ih (mergeBrowserTech st t) x hx with hx' | ⟨t', ht', hrest⟩
    · rcases mergeBrowserTech_frontend st t x hx' with h | ⟨k, h1, h2, h3⟩
      · exact Or.inl h
      · exact Or.inr ⟨t, List.mem_cons_self _ _, k, h1, h2, h3⟩
    · exact Or.inr ⟨t', List.mem_cons_of_mem _ ht', hrest⟩

/-- Confidence recorded for a mapped key after one merge step. -/
theorem mergeBrowserTech_conf_self (st : Technologies × List (String × TechMatch))
    (tech key : String) (hk : mapBrowserTechToKey tech = some key) :
    ((mergeBrowserTech st tech).2.lookup key).map TechMatch.confidence =
      some (max (((st.2.lookup key).map TechMatch.confidence).getD 0) 3) := by
  unfold mergeBrowserTech
  rw [hk]
  simp only
  rw [setKey_lookup_self]
  rcases st.2.lookup key with _ | m
  · rfl
  · rfl

theorem mergeBrowserTech_conf_ne (st : Technologies × List (String × TechMatch))
    (tech key : String)
    (hk : mapBrowserTechToKey tech ≠ some key) :
    (mergeBrowserTech st tech).2.lookup key = st.2.lookup key := by
  unfold mergeBrowserTech
  rcases hmk : mapBrowserTechToKey tech with _ | k'
  · rfl
  · simp only
    rw [setKey_lookup_ne]
    intro he
    exact hk (by rw [hmk, he])

theorem mergeBrowserTechs_lookup_untouched (key : String) :
    ∀ (l : List String) (st : Technologies × List (String × TechMatch)),
      (∀ t ∈ l, mapBrowserTechToKey t ≠ some key) →
      (mergeBrowserTechs l st).2.lookup key = st.2.lookup key := by
  intro l
  induction l with
  | nil => intro st _; rfl
  | cons u us ihu =>
    intro st hall
    show (mergeBrowserTechs us (mergeBrowserTech st u)).2.lookup key = _
    rw [ihu _ (fun t' ht' => hall t' (List.mem_cons_of_mem _ ht')),
      mergeBrowserTech_conf_ne st u key (hall u (List.mem_cons_self _ _))]

theorem mergeBrowserTechs_conf (l : List String) :
    ∀ (st : Technologies × List (String × TechMatch)) (t : String), t ∈ l →
      ∀ key, mapBrowserTechToKey t = some key →
      ((mergeBrowserTechs l st).2.lookup key).map TechMatch.confidence =
        some (max (((st.2.lookup key).map TechMatch.confidence).getD 0) 3) := by
  induction l with
  | nil => intro st t ht; cases ht
  | cons t0 ts ih =>
    intro st t ht key hkey
    show ((mergeBrowserTechs ts (mergeBrowserTech st t0)).2.lookup key).map _ = _
    by_cases hmem : ∃ t' ∈ ts, mapBrowserTechToKey t' = some key
    · obtain ⟨t', ht', hk'⟩ := hmem
      rw [ih (mergeBrowserTech st t0) t' ht' key hk']
      by_cases h0 : mapBrowserTechToKey t0 = some key
      · rw [mergeBrowserTech_conf_self st t0 key h0]
        simp [max_assoc]
      · rw [mergeBrowserTech_conf_ne st t0 key h0]
    · push_neg at hmem
      rcases List.mem_cons.mp ht with heq | ht'
      · subst heq
        rw [mergeBrowserTechs_lookup_untouched key ts _ hmem,
          mergeBrowserTech_conf_self st t key hkey]
      · exact absurd hkey (hmem t ht')

/-! ### Orchestrator bookkeeping -/

theorem deduplicateResult_tech (r : ScanRecord) :
    (deduplicateResult r).technologies = r.technologies.dedupAll := by
  unfold deduplicateResult
  rcases r.verdict with _ | v <;> rfl

theorem deduplicateResult_fields (r : ScanRecord) :
    (deduplicateResult r).url = r.url ∧ (deduplicateResult r).status = r.status ∧
    (deduplicateResult r).detectionMethod = r.detectionMethod := by
  unfold deduplicateResult
  rcases r.verdict with _ | v <;> exact ⟨rfl, rfl, rfl⟩

theorem tier2Update_tech (a : AnalyzeOut) (merged : Technologies × List (String × TechMatch))
    (old : ScanRecord) : (tier2Update a merged old).technologies = merged.1.dedupAll := by
  unfold tier2Update
  rw [deduplicateResult_tech]

theorem tier2Update_method (a : AnalyzeOut) (merged : Technologies × List (String × TechMatch))
    (old : ScanRecord) : (tier2Update a merged old).detectionMethod = "browser" := by
  unfold tier2Update
  exact (deduplicateResult_fields _).2.2

theorem tier1Handle_tech (now url : String) (obs : FetchObs) :
    (tier1Handle now url obs).technologies =
      (analyzeStaticResponse obs.page obs.headers url).technologies.dedupAll := by
  unfold tier1Handle
  rw [deduplicateResult_tech]

theorem updateFirst_length (url : String) (f : ScanRecord → ScanRecord) :
    ∀ (l : List ScanRecord), (updateFirst l url f).1.length = l.length := by
  intro l
  induction l with
  | nil => rfl
  | cons r rest ih =>
    simp only [updateFirst]
    split
    · rfl
    · simp [ih]

theorem updateFirst_some (url : String) (f : ScanRecord → ScanRecord) :
    ∀ (l : List ScanRecord) (c : ScanRecord), (updateFirst l url f).2 = some c →
      ∃ r0 ∈ l, c = f r0 := by
  intro l
  induction l with
  | nil => intro c h; cases h
  | cons r rest ih =>
    intro c h
    simp only [updateFirst] at h
    split at h
    · simp only at h
      exact ⟨r, List.mem_cons_self _ _, by cases h; rfl⟩
    · simp only at h
      obtain ⟨r0, hr0, hc⟩ := ih c h
      exact ⟨r0, List.mem_cons_of_mem _ hr0, hc⟩

theorem tier1_fold_sink_shape (now : String) (fetch : String → FetchOutcome) :
    ∀ (urls : List String) (acc : List ScanRecord × List ScanRecord),
      (∀ r ∈ acc.2, SinkShape now r) →
      ∀ r ∈ (urls.foldl (tier1Step now fetch) acc).2, SinkShape now r := by
  intro urls
  induction urls with
  | nil => intro acc h; exact h
  | cons u us ih =>
    intro acc h
    refine ih (tier1Step now fetch acc u) ?_
    intro r hr
    unfold tier1Step at hr
    rcases hfu : fetch u with _ | msg | obs <;> rw [hfu] at hr <;> dsimp only at hr
    · exact h r hr
    · rcases List.mem_append.mp hr with hr | hr
      · exact h r hr
      · simp only [List.mem_singleton] at hr
        exact Or.inl ⟨u, msg, hr⟩
    · rcases List.mem_append.mp hr with hr | hr
      · exact h r hr
      · simp only [List.mem_singleton] at hr
        exact Or.inr (Or.inl ⟨u, obs, hr⟩)

theorem tier2_fold_sink_shape (now : String) (render : String → Option RenderObs) :
    ∀ (us : List String) (st : List ScanRecord × List ScanRecord),
      (∀ r ∈ st.2, SinkShape now r) →
      ∀ r ∈ (us.foldl (tier2Handle render) st).2, SinkShape now r := by
  intro us
  induction us with
  | nil => intro st h; exact h
  | cons u rest ih =>
    intro st h
    refine ih (tier2Handle render st u) ?_
    intro r hr
    unfold tier2Handle at hr
    rcases hru : render u with _ | obs <;> rw [hru] at hr <;> dsimp only at hr
    · exact h r hr
    · rcases hupd : updateFirst st.1 u (tier2Fresh u obs) with ⟨results', oc⟩
      rw [hupd] at hr
      rcases oc with _ | c <;> dsimp only at hr
      · exact h r hr
      · rcases List.mem_append.mp hr with hr | hr
        · exact h r hr
        · simp only [List.mem_singleton] at hr
          obtain ⟨r0, _, hc⟩ := updateFirst_some u (tier2Fresh u obs) st.1 c (by rw [hupd])
          exact Or.inr (Or.inr ⟨u, obs, r0, by rw [hr, hc]⟩)

theorem runScan_sink_shape (now : String) (urls : List String) (fetch : String → FetchOutcome)
    (render : String → Option RenderObs) (fb : Bool) :
    ∀ r ∈ (runScan now urls fetch render fb).2, SinkShape now r := by
  unfold runScan
  have h1 : ∀ r ∈ (runTier1 now fetch urls).2, SinkShape now r := by
    unfold runTier1
    exact tier1_fold_sink_shape now fetch urls ([], []) (by intro r hr; cases hr)
  by_cases hfb : fb = true
  · rw [hfb]
    simp only [if_pos]
    exact tier2_fold_sink_shape now render _ _ h1
  · have : fb = false := by
      cases fb
      · rfl
      · exact absurd rfl hfb
    rw [this]
    simp only [Bool.false_eq_true, if_neg, not_false_iff]
    exact h1

/-- All three sink shapes carry fully deduplicated technologies arrays. -/
theorem sinkShape_get_dedup (now : String) (r : ScanRecord) (h : SinkShape now r)
    (c : Category) : ∃ l, r.technologies.get c = deduplicateArray l := by
  rcases h with ⟨url, msg, rfl⟩ | ⟨url, obs, rfl⟩ | ⟨url, obs, old, rfl⟩
  · refine ⟨[], ?_⟩
    cases c <;> rfl
  · rw [tier1Handle_tech, dedupAll_get]
    exact ⟨_, rfl⟩
  · unfold tier2Fresh
    rw [tier2Update_tech, dedupAll_get]
    exact ⟨_, rfl⟩

/-- All three sink shapes keep `technologies.cms` at length at most 1. -/
theorem sinkShape_cms_le_one (now : String) (r : ScanRecord) (h : SinkShape now r) :
    r.technologies.cms.length ≤ 1 := by
  have hget : r.technologies.cms = r.technologies.get Category.cms := rfl
  rcases h with ⟨url, msg, rfl⟩ | ⟨url, obs, rfl⟩ | ⟨url, obs, old, rfl⟩
  · exact Nat.zero_le 1
  · rw [hget, tier1Handle_tech, dedupAll_get]
    calc (deduplicateArray ((analyzeStaticResponse obs.page obs.headers url).technologies.get
          Category.cms)).length
        ≤ ((analyzeStaticResponse obs.page obs.headers url).technologies.get
            Category.cms).length := deduplicateArray_length_le _
      _ ≤ 1 := (analyze_cms_spec obs.page obs.headers url).1
  · rw [hget]
    unfold tier2Fresh
    rw [tier2Update_tech, dedupAll_get]
    have hframe := mergeBrowserTechs_get_ne obs.browserTechs Category.cms (by intro hc; cases hc)
      ((analyzeStaticResponse obs.page obs.headers url).technologies,
       (analyzeStaticResponse obs.page obs.headers url).techMatches)
    rw [hframe]
    calc (deduplicateArray ((analyzeStaticResponse obs.page obs.headers url).technologies.get
          Category.cms)).length
        ≤ ((analyzeStaticResponse obs.page obs.headers url).technologies.get
            Category.cms).length := deduplicateArray_length_le _
      _ ≤ 1 := (analyze_cms_spec obs.page obs.headers url).1

/-! ### Record and sink bookkeeping for the output-cardinality claim -/

theorem tier1Handle_url (now url : String) (obs : FetchObs) :
    (tier1Handle now url obs).url = url := by
  unfold tier1Handle
  exact (deduplicateResult_fields _).1

theorem tier2Fresh_method (url : String) (obs : RenderObs) (old : ScanRecord) :
    (tier2Fresh url obs old).detectionMethod = "browser" := by
  unfold tier2Fresh
  exact tier2Update_method _ _ _

theorem tier1_fold_urls (now : String) (fetch : String → FetchOutcome) :
    ∀ (urls : List String) (acc : List ScanRecord × List ScanRecord),
      ((urls.foldl (tier1Step now fetch) acc).1).map ScanRecord.url =
        acc.1.map ScanRecord.url ++
          urls.filter (fun u => fetch u ≠ FetchOutcome.netFail) := by
  intro urls
  induction urls with
  | nil => intro acc; simp
  | cons u us ih =>
    intro acc
    rw [List.foldl_cons, ih]
    rcases hfu : fetch u with _ | msg | obs
    · unfold tier1Step
      rw [hfu]
      simp [List.filter_cons, hfu]
    · unfold tier1Step
      rw [hfu]
      simp [List.filter_cons, hfu, failedRecord, List.append_assoc]
    · unfold tier1Step
      rw [hfu]
      simp [List.filter_cons, hfu, tier1Handle_url, List.append_assoc]

theorem tier1_fold_sink_eq (now : String) (fetch : String → FetchOutcome) :
    ∀ (urls : List String) (acc : List ScanRecord × List ScanRecord), acc.2 = acc.1 →
      (urls.foldl (tier1Step now fetch) acc).2 = (urls.foldl (tier1Step now fetch) acc).1 := by
  intro urls
  induction urls with
  | nil => intro acc h; exact h
  | cons u us ih =>
    intro acc h
    rw [List.foldl_cons]
    refine ih _ ?_
    unfold tier1Step
    rcases fetch u with _ | msg | obs
    · exact h
    · simp [h]
    · simp [h]

theorem runTier1_sink_eq (now : String) (fetch : String → FetchOutcome) (urls : List String) :
    (runTier1 now fetch urls).2 = (runTier1 now fetch urls).1 :=
  tier1_fold_sink_eq now fetch urls ([], []) rfl

theorem tier2Handle_results_length (render : String → Option RenderObs)
    (st : List ScanRecord × List ScanRecord) (url : String) :
    (tier2Handle render st url).1.length = st.1.length := by
  unfold tier2Handle
  split
  · rfl
  · rename_i obs hro
    have hlen := updateFirst_length url (tier2Fresh url obs) st.1
    split <;> rename_i heq <;> rw [heq] at hlen <;> exact hlen

theorem tier2_fold_results_length (render : String → Option RenderObs) :
    ∀ (us : List String) (st : List ScanRecord × List ScanRecord),
      ((us.foldl (tier2Handle render) st).1).length = st.1.length := by
  intro us
  induction us with
  | nil => intro st; rfl
  | cons u rest ih =>
    intro st
    rw [List.foldl_cons, ih, tier2Handle_results_length]

theorem tier2Handle_sink_ext (render : String → Option RenderObs)
    (st : List ScanRecord × List ScanRecord) (url : String) :
    ∃ extra, (tier2Handle render st url).2 = st.2 ++ extra ∧
      ∀ r ∈ extra, r.detectionMethod = "browser" := by
  unfold tier2Handle
  rcases hru : render url with _ | obs
  · exact ⟨[], by simp, by intro r hr; cases hr⟩
  · dsimp only
    rcases hupd : updateFirst st.1 url (tier2Fresh url obs) with ⟨results', oc⟩
    rcases oc with _ | c <;> dsimp only
    · exact ⟨[], by simp, by intro r hr; cases hr⟩
    · refine ⟨[c], rfl, ?_⟩
      intro r hr
      simp only [List.mem_singleton] at hr
      subst hr
      obtain ⟨r0, _, hc⟩ := updateFirst_some url (tier2Fresh url obs) st.1 r (by rw [hupd])
      rw [hc]
      exact tier2Fresh_method url obs r0

theorem tier2_fold_sink_ext (render : String → Option RenderObs) :
    ∀ (us : List String) (st : List ScanRecord × List ScanRecord),
      ∃ extra, ((us.foldl (tier2Handle render) st).2) = st.2 ++ extra ∧
        ∀ r ∈ extra, r.detectionMethod = "browser" := by
  intro us
  induction us with
  | nil => intro st; exact ⟨[], by simp, by intro r hr; cases hr⟩
  | cons u rest ih =>
    intro st
    rw [List.foldl_cons]
    obtain ⟨e1, he1, hm1⟩ := tier2Handle_sink_ext render st u
    obtain ⟨e2, he2, hm2⟩ := ih (tier2Handle render st u)
    refine ⟨e1 ++ e2, ?_, ?_⟩
    · rw [he2, he1, List.append_assoc]
    · intro r hr
      rcases List.mem_append.mp hr with hr | hr
      · exact hm1 r hr
      · exact hm2 r hr

/-! ### WAF winner characterization -/

theorem pickMax_spec :
    ∀ (l : List (String × Nat)) (a : String × Nat),
      (pickMax a l = a ∧ ∀ q ∈ l, q.2 < a.2) ∨
      (∃ l₁ l₂, l = l₁ ++ (pickMax a l) :: l₂ ∧ a.2 ≤ (pickMax a l).2 ∧
        (∀ q ∈ l₁, q.2 ≤ (pickMax a l).2) ∧ ∀ q ∈ l₂, q.2 < (pickMax a l).2) := by
  intro l
  induction l with
  | nil =>
    intro a
    exact Or.inl ⟨rfl, by intro q hq; cases hq⟩
  | cons b t ih =>
    intro a
    by_cases hab : a.2 > b.2
    · have hstep : pickMax a (b :: t) = pickMax a t := by
        show pickMax (if a.2 > b.2 then a else b) t = pickMax a t
        rw [if_pos hab]
      rw [hstep]
      rcases ih a with ⟨heq, hall⟩ | ⟨l₁, l₂, heq, hle, h₁, h₂⟩
      · refine Or.inl ⟨heq, ?_⟩
        intro q hq
        rcases List.mem_cons.mp hq with rfl | hq
        · exact hab
        · exact hall q hq
      · refine Or.inr ⟨b :: l₁, l₂, ?_, hle, ?_, h₂⟩
        · rw [List.cons_append, ← heq]
        · intro q hq
          rcases List.mem_cons.mp hq with rfl | hq
          · exact le_trans (le_of_lt hab) hle
          · exact h₁ q hq
    · have hstep : pickMax a (b :: t) = pickMax b t := by
        show pickMax (if a.2 > b.2 then a else b) t = pickMax b t
        rw [if_neg hab]
      rw [hstep]
      push_neg at hab
      rcases ih b with ⟨heq, hall⟩ | ⟨l₁, l₂, heq, hle, h₁, h₂⟩
      · refine Or.inr ⟨[], t, ?_, ?_, ?_, ?_⟩
        · rw [heq]
          simp
        · rw [heq]; exact hab
        · intro q hq; cases hq
        · intro q hq; rw [heq]; exact hall q hq
      · refine Or.inr ⟨b :: l₁, l₂, ?_, le_trans hab hle, ?_, h₂⟩
        · rw [List.cons_append, ← heq]
        · intro q hq
          rcases List.mem_cons.mp hq with rfl | hq
          · exact hle
          · exact h₁ q hq

/-- `pickMax` splits the whole list `a :: l` at the winner: everything
before is at most the winner's score, everything after strictly less. -/
theorem pickMax_split (a : String × Nat) (l : List (String × Nat)) :
    ∃ L₁ L₂, a :: l = L₁ ++ (pickMax a l) :: L₂ ∧
      (∀ q ∈ L₁, q.2 ≤ (pickMax a l).2) ∧ ∀ q ∈ L₂, q.2 < (pickMax a l).2 := by
  rcases pickMax_spec l a with ⟨heq, hall⟩ | ⟨l₁, l₂, heq, hle, h₁, h₂⟩
  · refine ⟨[], l, ?_, ?_, ?_⟩
    · rw [heq]; simp
    · intro q hq; cases hq
    · rw [heq]; exact hall
  · refine ⟨a :: l₁, l₂, ?_, ?_, h₂⟩
    · rw [List.cons_append, ← heq]
    · intro q hq
      rcases List.mem_cons.mp hq with rfl | hq
      · exact hle
      · exact h₁ q hq

theorem wafScores_eq (h : List (String × String)) (c : List String) (b : String) :
    ∀ (rules : List WafRule) (acc : List (String × Nat)),
      rules.foldl (fun acc rule =>
        let s := wafScore rule h c b
        if s > 0 then acc ++ [(rule.key, s)] else acc) acc =
      acc ++ (rules.map (fun rule => (rule.key, wafScore rule h c b))).filter
        (fun q => 0 < q.2) := by
  intro rules
  induction rules with
  | nil => intro acc; simp
  | cons rule rest ih =>
    intro acc
    rw [List.foldl_cons, ih]
    by_cases hs : 0 < wafScore rule h c b
    · simp only [hs, if_pos, List.map_cons, List.filter_cons, decide_eq_true_eq,
        List.append_assoc]
      simp [hs]
    · simp only [hs, if_neg, List.map_cons, List.filter_cons]
      simp [hs]

/-- Lift a split of `filter p (map f l)` back to a split of `l`. -/
theorem filter_map_split {α β : Type} (f : α → β) (p : β → Bool) :
    ∀ (l : List α) (L₁ : List β) (x : β) (L₂ : List β),
      (l.map f).filter p = L₁ ++ x :: L₂ →
      ∃ l₁ r l₂, l = l₁ ++ r :: l₂ ∧ f r = x ∧ (l₂.map f).filter p = L₂ := by
  intro l
  induction l with
  | nil =>
    intro L₁ x L₂ hh
    simp only [List.map_nil, List.filter_nil] at hh
    exact absurd hh.symm (List.append_ne_nil_of_right_ne_nil _ (by simp))
  | cons a t ih =>
    intro L₁ x L₂ hh
    simp only [List.map_cons, List.filter_cons] at hh
    by_cases hp : p (f a)
    · rw [if_pos hp] at hh
      rcases L₁ with _ | ⟨y, L₁'⟩
      · simp only [List.nil_append] at hh
        obtain ⟨rfl, rfl⟩ : f a = x ∧ (t.map f).filter p = L₂ := by
          refine ⟨?_, ?_⟩ <;> [exact (List.cons.injEq _ _ _ _ ▸ hh).1;
            exact (List.cons.injEq _ _ _ _ ▸ hh).2]
        exact ⟨[], a, t, rfl, rfl, rfl⟩
      · simp only [List.cons_append] at hh
        have h1 : f a = y := (List.cons.injEq _ _ _ _ ▸ hh).1
        have h2 : (t.map f).filter p = L₁' ++ x :: L₂ := (List.cons.injEq _ _ _ _ ▸ hh).2
        obtain ⟨l₁, r, l₂, rfl, hr, hrest⟩ := ih L₁' x L₂ h2
        exact ⟨a :: l₁, r, l₂, rfl, hr, hrest⟩
    · rw [if_neg hp] at hh
      obtain ⟨l₁, r, l₂, rfl, hr, hrest⟩ := ih L₁ x L₂ hh
      exact ⟨a :: l₁, r, l₂, rfl, hr, hrest⟩

/-! ## Claim theorems -/

/-- **C1.** In every scan result produced by the static analysis (and in
every record the orchestrator appends to the sink, including Tier-2
re-resolutions) the cms array holds at most one entry; every surviving
CMS candidate cleared the cms threshold of 3, and the single entry, when
present, is the formatted highest-scoring candidate with ties broken by
corpus declaration order (the first maximum of the candidate list, which
is built in declaration order). -/
theorem c1_cms_single_winner :
    (∀ (page : Page) (headers : List (String × String)) (url : String),
      ((analyzeStaticResponse page headers url).technologies.cms).length ≤ 1 ∧
      (∀ c ∈ (scanState page headers).cmsCandidates, 3 ≤ c.confidence) ∧
      (∀ s ∈ (analyzeStaticResponse page headers url).technologies.cms,
        ∃ c : CmsCandidate,
          IsFirstMaxBy (fun c : CmsCandidate => c.confidence)
            ((scanState page headers).cmsCandidates) c ∧
          s = formatTechName c.displayName c.version)) ∧
    (∀ (now : String) (urls : List String) (fetch : String → FetchOutcome)
        (render : String → Option RenderObs) (fb : Bool),
      ∀ r ∈ (runScan now urls fetch render fb).2, (r.technologies.cms).length ≤ 1) := by
  constructor
  · intro page headers url
    exact ⟨(analyze_cms_spec page headers url).1, scanState_candidates_ge3 page headers,
      (analyze_cms_spec page headers url).2⟩
  · intro now urls fetch render fb r hr
    exact sinkShape_cms_le_one now r (runScan_sink_shape now urls fetch render fb r hr)

/-- Witness for C1 at concrete inputs: the empty page and a
one-URL batch whose handler crashed. -/
theorem c1_cms_single_winner_witness :
    ((analyzeStaticResponse {} [] "https://example.com").technologies.cms).length ≤ 1 ∧
    ((failedRecord "t" "a" "boom").technologies.cms).length ≤ 1 :=
  ⟨(c1_cms_single_winner.1 {} [] "https://example.com").1,
   c1_cms_single_winner.2 "t" ["a"] (fun _ => FetchOutcome.crashed "boom") (fun _ => none)
     false (failedRecord "t" "a" "boom") (by decide)⟩

/-- **C2 counterexample.** At a match map whose only (cms) entry scores
5, the verdict confidence is `medium` (the verdict tiering cuts high at
6), while the WAF scorer's tiering — which the claim says is the same —
gives `high` at 5.  So the claimed equality fails at this input. -/
theorem c2_verdict_tier_counterexample :
    (buildVerdict {} cexC2Matches { detected := false } ⟨"Unknown", none⟩).confidence =
      "medium" ∧
    maxPrimaryScore (buildVerdict {} cexC2Matches { detected := false }
      ⟨"Unknown", none⟩).primary = 5 ∧
    wafTierFromScore 5 = "high" ∧
    ¬ ((buildVerdict {} cexC2Matches { detected := false } ⟨"Unknown", none⟩).confidence =
        wafTierFromScore (maxPrimaryScore (buildVerdict {} cexC2Matches { detected := false }
          ⟨"Unknown", none⟩).primary)) := by
  decide

/-- **C2 (amended).** The verdict's overall confidence applies the
three-tier thresholding with cuts 6 (high) and 3 (medium) — not the WAF
scorer's cut of 5 — to the maximum confidence among the primary cms,
frontend, hosting and cdn picks. -/
theorem c2_verdict_tier :
    ∀ (t : Technologies) (m : List (String × TechMatch)) (w : WafInfo) (s : ServerInfo),
      (buildVerdict t m w s).confidence =
        (if 6 ≤ maxPrimaryScore (buildVerdict t m w s).primary then "high"
         else if 3 ≤ maxPrimaryScore (buildVerdict t m w s).primary then "medium"
         else "low") := by
  intro t m w s
  rfl

/-- **C3.** A URL is handed to the Tier-2 (browser) crawler iff the
Playwright fallback is enabled and its Tier-1 record succeeded with zero
technologies across all categories; a URL with any Tier-1 match is never
rendered. -/
theorem c3_tier2_selection :
    ∀ (now : String) (urls : List String) (fetch : String → FetchOutcome) (fb : Bool)
      (u : String),
      u ∈ renderedUrls now urls fetch fb ↔
        (fb = true ∧ ∃ r ∈ (runTier1 now fetch urls).1,
          r.url = u ∧ r.status = "success" ∧ totalTechCount r.technologies = 0) := by
  intro now urls fetch fb u
  unfold renderedUrls
  cases fb
  · simp
  · rw [if_pos rfl]
    constructor
    · intro hu
      refine ⟨rfl, ?_⟩
      unfold spaUrls at hu
      obtain ⟨r, hr, hurl⟩ := List.mem_map.mp hu
      obtain ⟨hmem, hp⟩ := List.mem_filter.mp hr
      have hp' := of_decide_eq_true hp
      exact ⟨r, hmem, hurl, hp'.1, hp'.2⟩
    · rintro ⟨-, r, hmem, hurl, hs, hc⟩
      unfold spaUrls
      exact List.mem_map.mpr ⟨r, List.mem_filter.mpr ⟨hmem, decide_eq_true ⟨hs, hc⟩⟩, hurl⟩

/-- Witness for C3: with the fallback on, a URL whose static pass found
nothing is selected for rendering. -/
theorem c3_tier2_selection_witness :
    "a" ∈ renderedUrls "t" ["a"] (fun _ => FetchOutcome.ok {}) true :=
  (c3_tier2_selection "t" ["a"] (fun _ => FetchOutcome.ok {}) true "a").mpr
    ⟨rfl, tier1Handle "t" "a" {}, by decide⟩

/-- **C4 counterexample.** Two refutations of the claimed scoring rules
at concrete inputs.  First, with one cloudflare header and one akamai
header both providers score 3 — cloudflare is declared first — yet the
winner is Akamai: the reduce keeps the accumulator only on a *strict*
win, so ties go to the later provider, not the first-seen one.  Second,
two cookies both matching the single signature prefix `_px3` score 2,
not 2 per matching cookie: the weight is per signature cookie name. -/
theorem c4_waf_scoring_counterexample :
    (detectWAF [("cf-ray", "x"), ("akamai-grn", "y")] [] "" =
      some ⟨"Akamai", "medium", 3⟩) ∧
    (WAF_PATTERNS.map (fun rule =>
        (rule.key, wafScore rule [("cf-ray", "x"), ("akamai-grn", "y")] [] "")) =
      [("cloudflare", 3), ("akamai", 3), ("imperva", 0), ("perimeterx", 0), ("kasada", 0),
       ("datadome", 0), ("awswaf", 0), ("modsecurity", 0)]) ∧
    (detectWAF [] ["_px3a", "_px3b"] "" = some ⟨"Perimeterx", "low", 2⟩) := by
  decide

/-- **C4 (amended).** The WAF scorer gives each provider 3 per present
header name, 2 per signature cookie *name* that at least one cookie
matches by prefix (not per matching cookie), 2 flat for a server-banner
match and 1 flat for an HTML-body match on a non-empty body; providers
scoring 0 are dropped; the maximum-scoring provider wins with ties going
to the *last* declared provider (everything declared after the winner
scores strictly less); and when no provider scores above 0 the result is
not-detected. -/
theorem c4_waf_scoring :
    ∀ (h : List (String × String)) (c : List String) (b : String),
      (∀ rule : WafRule, wafScore rule h c b =
        3 * (rule.headers.filter (fun hd => (h.lookup (lcString hd)).isSome)).length +
        2 * (rule.cookies.filter (fun ck =>
              c.any (fun cookie => strStarts (lcString cookie) (lcString ck)))).length +
        (match rule.server with
         | some p => if p.test ((h.lookup "server").getD "") then 2 else 0
         | none => 0) +
        (match rule.htmlRe with
         | some p => if b ≠ "" ∧ p.test b then 1 else 0
         | none => 0)) ∧
      (detectWAF h c b = none ↔ ∀ rule ∈ WAF_PATTERNS, wafScore rule h c b = 0) ∧
      (∀ res, detectWAF h c b = some res →
        0 < res.score ∧ res.confidence = wafTierFromScore res.score ∧
        ∃ pre rule post, WAF_PATTERNS = pre ++ rule :: post ∧
          res.name = capitalizeStr rule.key ∧ res.score = wafScore rule h c b ∧
          (∀ rule' ∈ WAF_PATTERNS, wafScore rule' h c b ≤ res.score) ∧
          (∀ rule' ∈ post, wafScore rule' h c b < res.score)) := by
  intro h c b
  refine ⟨?_, ?_, ?_⟩
  · intro rule
    simp only [wafScore]
    rcases hsv : rule.server with _ | p <;> rcases hht : rule.htmlRe with _ | q <;>
        dsimp only
    · omega
    · by_cases hb : b = "" <;> by_cases htq : q.test b <;> simp [hb, htq] <;> omega
    · by_cases hsp : p.test ((h.lookup "server").getD "") <;> simp [hsp] <;> omega
    · by_cases hsp : p.test ((h.lookup "server").getD "") <;> by_cases hb : b = "" <;>
        by_cases htq : q.test b <;> simp [hsp, hb, htq] <;> omega
  · constructor
    · intro hnone rule hrule
      unfold detectWAF at hnone
      rw [wafScores_eq h c b WAF_PATTERNS [], List.nil_append] at hnone
      rcases hf : (WAF_PATTERNS.map (fun rule => (rule.key, wafScore rule h c b))).filter
          (fun q => 0 < q.2) with _ | ⟨x, xs⟩
      · have hall := List.filter_eq_nil_iff.mp hf
        have hmem : (rule.key, wafScore rule h c b) ∈
            WAF_PATTERNS.map (fun rule => (rule.key, wafScore rule h c b)) :=
          List.mem_map.mpr ⟨rule, hrule, rfl⟩
        have := hall _ hmem
        simp only [decide_eq_true_eq] at this
        omega
      · rw [hf] at hnone
        cases hnone
    · intro hall
      unfold detectWAF
      rw [wafScores_eq h c b WAF_PATTERNS [], List.nil_append]
      have hf : (WAF_PATTERNS.map (fun rule => (rule.key, wafScore rule h c b))).filter
          (fun q => 0 < q.2) = [] := by
        refine List.filter_eq_nil_iff.mpr ?_
        intro q hq
        obtain ⟨rule, hrule, rfl⟩ := List.mem_map.mp hq
        simp [hall rule hrule]
      rw [hf]
  · intro res hres
    unfold detectWAF at hres
    rw [wafScores_eq h c b WAF_PATTERNS [], List.nil_append] at hres
    rcases hf : (WAF_PATTERNS.map (fun rule => (rule.key, wafScore rule h c b))).filter
        (fun q => 0 < q.2) with _ | ⟨x, xs⟩
    · rw [hf] at hres
      cases hres
    · rw [hf] at hres
      have hres' : res = ⟨capitalizeStr (pickMax x xs).1, wafTierFromScore (pickMax x xs).2,
          (pickMax x xs).2⟩ := by
        have := Option.some.inj hres
        exact this.symm
      obtain ⟨L₁, L₂, hsplit, hle, hlt⟩ := pickMax_split x xs
      have hsplit' : (WAF_PATTERNS.map (fun rule => (rule.key, wafScore rule h c b))).filter
          (fun q => 0 < q.2) = L₁ ++ (pickMax x xs) :: L₂ := by rw [hf, hsplit]
      have hmemfilter : pickMax x xs ∈
          (WAF_PATTERNS.map (fun rule => (rule.key, wafScore rule h c b))).filter
            (fun q => 0 < q.2) := by
        rw [hsplit']
        exact List.mem_append.mpr (Or.inr (List.mem_cons_self _ _))
      have hpos : 0 < (pickMax x xs).2 := by
        have := (List.mem_filter.mp hmemfilter).2
        simpa using this
      have hboundAll : ∀ q ∈ (WAF_PATTERNS.map
          (fun rule => (rule.key, wafScore rule h c b))).filter (fun q => 0 < q.2),
          q.2 ≤ (pickMax x xs).2 := by
        intro q hq
        rw [hsplit'] at hq
        rcases List.mem_append.mp hq with hq | hq
        · exact hle q hq
        · rcases List.mem_cons.mp hq with rfl | hq
          · exact le_refl _
          · exact le_of_lt (hlt q hq)
      obtain ⟨pre, rule, post, hW, hfr, hpost⟩ :=
        filter_map_split (fun rule => (rule.key, wafScore rule h c b))
          (fun q => decide (0 < q.2)) WAF_PATTERNS L₁ (pickMax x xs) L₂ hsplit'
      have hscore : res.score = wafScore rule h c b := by
        rw [hres']
        exact congrArg Prod.snd hfr.symm
      refine ⟨by rw [hres']; exact hpos, by rw [hres'], pre, rule, post, hW, ?_, hscore,
        ?_, ?_⟩
      · rw [hres']
        exact congrArg (fun q => capitalizeStr q.1) hfr.symm
      · intro rule' hrule'
        by_cases hp' : 0 < wafScore rule' h c b
        · have hmem' : (rule'.key, wafScore rule' h c b) ∈
              (WAF_PATTERNS.map (fun rule => (rule.key, wafScore rule h c b))).filter
                (fun q => 0 < q.2) :=
            List.mem_filter.mpr ⟨List.mem_map.mpr ⟨rule', hrule', rfl⟩, by simpa using hp'⟩
          have := hboundAll _ hmem'
          rw [hres']
          simpa using this
        · rw [hres']
          dsimp only
          omega
      · intro rule' hr'
        by_cases hp' : 0 < wafScore rule' h c b
        · have hmem' : (rule'.key, wafScore rule' h c b) ∈
              (post.map (fun rule => (rule.key, wafScore rule h c b))).filter
                (fun q => 0 < q.2) :=
            List.mem_filter.mpr ⟨List.mem_map.mpr ⟨rule', hr', rfl⟩, by simpa using hp'⟩
          rw [hpost] at hmem'
          have := hlt _ hmem'
          rw [hres']
          simpa using this
        · rw [hres']
          dsimp only
          omega

/-- Witness for C4 (amended): applying the characterization at the
tie-break inputs. -/
theorem c4_waf_scoring_witness :
    0 < WafResult.score ⟨"Akamai", "medium", 3⟩ ∧
    WafResult.confidence ⟨"Akamai", "medium", 3⟩ = wafTierFromScore 3 :=
  let hres := (c4_waf_scoring [("cf-ray", "x"), ("akamai-grn", "y")] [] "").2.2
    ⟨"Akamai", "medium", 3⟩ (by decide)
  ⟨hres.1, hres.2.1⟩

/-- **C5 counterexample.** On the scenario document the static analysis
produces `cms = ["Wordpress"]` — not `["Wordpress 6.3"]` — and the
wordpress match scores 4 (meta 2 + raw-html 2), not at least 5: the
`wp-content/themes/` reference matches the *html* channel (weight 2),
not the script channel, and no version is extracted from
`"WordPress 6.3"` because the version patterns require the technology
name to be followed by one of at-sign, slash, hyphen. -/
theorem c5_wordpress_scenario_counterexample :
    ((analyzeStaticResponse wordpressScenarioPage [] "https://example.com").technologies.cms =
      ["Wordpress"]) ∧
    ((analyzeStaticResponse wordpressScenarioPage [] "https://example.com").technologies.cms ≠
      ["Wordpress 6.3"]) ∧
    (((analyzeStaticResponse wordpressScenarioPage []
        "https://example.com").techMatches.lookup "wordpress").map TechMatch.confidence =
      some 4) := by
  decide

/-- **C5 (amended).** On a document containing
`meta generator = "WordPress 6.3"` and a script src containing
`wp-content/themes/x.js`, the static analysis yields
`technologies.cms = ["Wordpress"]` (no version), in category cms, with
confidence exactly 4 = 2 (meta) + 2 (html), which clears the cms
threshold of 3. -/
theorem c5_wordpress_scenario :
    ((analyzeStaticResponse wordpressScenarioPage [] "https://example.com").technologies.cms =
      ["Wordpress"]) ∧
    ((analyzeStaticResponse wordpressScenarioPage []
        "https://example.com").techMatches.lookup "wordpress" =
      some ⟨4, none, Category.cms, "Wordpress", ["meta", "html"]⟩) ∧
    minConfidence Category.cms = 3 ∧ 3 ≤ 4 := by
  decide

/-- **C6.** If the Tier-2 browser pass fails for a URL (the render,
navigation or evaluation step throws, so the handler's catch fires
before any mutation), the results list and the sink are exactly as the
static pass left them: the URL's record keeps status `success`,
detectionMethod `static`, and its technologies, verdict and metadata. -/
theorem c6_render_error_preserves :
    ∀ (render : String → Option RenderObs) (st : List ScanRecord × List ScanRecord)
      (url : String), render url = none → tier2Handle render st url = st := by
  intro render st url h
  unfold tier2Handle
  rw [h]

/-- Witness for C6 at a concrete state. -/
theorem c6_render_error_preserves_witness :
    tier2Handle (fun _ => none) ([failedRecord "t" "a" "boom"], []) "a" =
      ([failedRecord "t" "a" "boom"], []) :=
  c6_render_error_preserves (fun _ => none) ([failedRecord "t" "a" "boom"], []) "a" rfl

/-- **C7 counterexample.** In a two-URL batch where `a` succeeds with an
empty page (hence is re-rendered) and `b` fails on the network, the
append-only sink ends with *two* records, both for `a` — the
intermediate static record and the updated browser record — and no
record at all for `b`.  So neither "exactly one record per input URL"
nor "never both the intermediate static record and the updated browser
record" holds of the sink. -/
theorem c7_sink_counterexample :
    ((runScan "t" ["a", "b"] cexC7Fetch cexC7Render true).2.map ScanRecord.url =
      ["a", "a"]) ∧
    ((runScan "t" ["a", "b"] cexC7Fetch cexC7Render true).2.map ScanRecord.detectionMethod =
      ["static", "browser"]) := by
  decide

/-- **C7 (amended).** Tier 1 appends exactly one record per URL whose
request completed (network-failed URLs produce no record), and the sink
equals the results list after Tier 1; Tier 2 updates the in-memory
results list in place (its length never changes) but *appends* the
updated browser record to the sink, so a successfully re-rendered URL
has both its static and its browser record in the sink. -/
theorem c7_sink_dup :
    ∀ (now : String) (urls : List String) (fetch : String → FetchOutcome)
      (render : String → Option RenderObs) (fb : Bool),
      ((runTier1 now fetch urls).1.map ScanRecord.url =
        urls.filter (fun u => fetch u ≠ FetchOutcome.netFail)) ∧
      ((runTier1 now fetch urls).2 = (runTier1 now fetch urls).1) ∧
      ((runScan now urls fetch render fb).1.length = (runTier1 now fetch urls).1.length) ∧
      (∃ extra, (runScan now urls fetch render fb).2 = (runTier1 now fetch urls).2 ++ extra ∧
        ∀ r ∈ extra, r.detectionMethod = "browser") := by
  intro now urls fetch render fb
  refine ⟨?_, runTier1_sink_eq now fetch urls, ?_, ?_⟩
  · have := tier1_fold_urls now fetch urls ([], [])
    simpa [runTier1] using this
  · unfold runScan
    cases fb
    · simp
    · rw [if_pos rfl]
      exact tier2_fold_results_length render _ _
  · unfold runScan
    cases fb
    · simp only [Bool.false_eq_true, if_neg, not_false_iff]
      exact ⟨[], by simp, by intro r hr; cases hr⟩
    · rw [if_pos rfl]
      exact tier2_fold_sink_ext render _ _

/-- Witness for C7 (amended) at a concrete crashed batch. -/
theorem c7_sink_dup_witness :
    (runTier1 "t" (fun _ => FetchOutcome.crashed "boom") ["a"]).2 =
      (runTier1 "t" (fun _ => FetchOutcome.crashed "boom") ["a"]).1 :=
  (c7_sink_dup "t" ["a"] (fun _ => FetchOutcome.crashed "boom") (fun _ => none) false).2.1

/-- **C8.** No technologies category array of any emitted (sink) record
contains two entries differing only by letter case, and the
deduplication keeps the first occurrence, preserving its original
casing: every kept entry literally occurs in the input at a position
before which no case-equal entry exists. -/
theorem c8_case_insensitive_dedup :
    (∀ (now : String) (urls : List String) (fetch : String → FetchOutcome)
        (render : String → Option RenderObs) (fb : Bool),
      ∀ r ∈ (runScan now urls fetch render fb).2, ∀ c : Category,
        (r.technologies.get c).Pairwise CaseDistinct) ∧
    (∀ (l : List String), (deduplicateArray l).Pairwise CaseDistinct ∧
      ∀ x ∈ deduplicateArray l, ∃ l₁ l₂, l = l₁ ++ x :: l₂ ∧
        ∀ y ∈ l₁, lcString y ≠ lcString x) := by
  constructor
  · intro now urls fetch render fb r hr c
    obtain ⟨l, hl⟩ :=
      sinkShape_get_dedup now r (runScan_sink_shape now urls fetch render fb r hr) c
    rw [hl]
    exact deduplicateArray_pairwise l
  · intro l
    exact ⟨deduplicateArray_pairwise l, fun x hx => deduplicateArray_first hx⟩

/-- Witness for C8 at concrete inputs. -/
theorem c8_case_insensitive_dedup_witness :
    (deduplicateArray ["Ab", "aB"]).Pairwise CaseDistinct ∧
    ((failedRecord "t" "a" "boom").technologies.get Category.cms).Pairwise CaseDistinct :=
  ⟨(c8_case_insensitive_dedup.2 ["Ab", "aB"]).1,
   c8_case_insensitive_dedup.1 "t" ["a"] (fun _ => FetchOutcome.crashed "boom")
     (fun _ => none) false (failedRecord "t" "a" "boom") (by decide) Category.cms⟩

/-- **C9.** The verdict synthesizer is a deterministic pure function: the
state of its four inputs after a run is the input state itself (it never
mutates them — `Object.entries` copies the match map and `sort` acts on
the copy), and a second application to that returned state yields the
identical verdict and state. -/
theorem c9_verdict_pure :
    ∀ (t : Technologies) (m : List (String × TechMatch)) (w : WafInfo) (s : ServerInfo),
      (buildVerdictSt t m w s).2 = (t, m, w, s) ∧
      buildVerdictSt (buildVerdictSt t m w s).2.1 (buildVerdictSt t m w s).2.2.1
          (buildVerdictSt t m w s).2.2.2.1 (buildVerdictSt t m w s).2.2.2.2 =
        buildVerdictSt t m w s := by
  intro t m w s
  exact ⟨rfl, rfl⟩

/-- **C10.** During the Tier-2 merge, a runtime-global detection adds an
entry to the technologies arrays only when its mapped key's category is
frontend: every non-frontend category array is left unchanged, every new
frontend entry is the formatted name of a frontend-category key detected
at runtime, and every runtime-detected key — whatever its category — is
recorded in the match details with confidence `max(existing, 3)`. -/
theorem c10_runtime_merge_frame :
    ∀ (l : List String) (st : Technologies × List (String × TechMatch)),
      (∀ c : Category, c ≠ .frontend → (mergeBrowserTechs l st).1.get c = st.1.get c) ∧
      (∀ x ∈ (mergeBrowserTechs l st).1.frontend, x ∈ st.1.frontend ∨
        ∃ t ∈ l, ∃ k, mapBrowserTechToKey t = some k ∧ getCategoryForTech k = .frontend ∧
          x = formatTechName (humanizeTechName k) none) ∧
      (∀ t ∈ l, ∀ key, mapBrowserTechToKey t = some key →
        ((mergeBrowserTechs l st).2.lookup key).map TechMatch.confidence =
          some (max (((st.2.lookup key).map TechMatch.confidence).getD 0) 3)) := by
  intro l st
  exact ⟨fun c hc => mergeBrowserTechs_get_ne l c hc st,
    fun x hx => mergeBrowserTechs_frontend l st x hx,
    fun t ht key hk => mergeBrowserTechs_conf l st t ht key hk⟩

/-- Witness for C10: merging the runtime-detected `Sentry` (an analytics
key) leaves the analytics array untouched while recording confidence 3. -/
theorem c10_runtime_merge_frame_witness :
    (mergeBrowserTechs ["Sentry"] ({}, [])).1.get Category.analytics =
      ({} : Technologies).get Category.analytics ∧
    ((mergeBrowserTechs ["Sentry"] ({}, [])).2.lookup "sentry").map TechMatch.confidence =
      some (max ((((([] : List (String × TechMatch))).lookup "sentry").map
        TechMatch.confidence).getD 0) 3) :=
  ⟨(c10_runtime_merge_frame ["Sentry"] ({}, [])).1 Category.analytics (by decide),
   (c10_runtime_merge_frame ["Sentry"] ({}, [])).2.2 "Sentry" (by decide) "sentry" (by decide)⟩

end TechStack
